import Mathlib

/-!
Verification of the plex_sync reconciliation engine (`src/watched.py`,
`src/playlists.py`) against its natural-language specification.

Shallow embedding conventions:
* Python dicts are modelled as association lists (`List (String × α)`) with
  first-key-wins lookup (`dictGet`) and in-place update (`dictSet`), matching
  CPython dict semantics for the operations the code performs.
* Python string truthiness on optional string fields (`None` and `""` falsy)
  is `strTruthy`.
* `tuple(set(xs))` is modelled as `xs.dedup`; every use in the code is
  membership-only, so the unspecified iteration order of a Python set is
  irrelevant.
* The per-(user, library) resolution performed by `synchronize_watched`
  (server snapshot present, user found through `search_mapping`, library
  found through `search_mapping`) is folded into one `Option (Option
  LibraryData)` per server: `none` models a failed fetch (snapshot absent),
  `some none` models a reachable server whose snapshot lacks the user or the
  library (the `continue` branches), and `some (some lib)` a server that
  carries both.  `search_mapping` lives in `src/functions.py`, which is not
  part of the sources; only the resolved outcome matters to the claims.
* Machine integers: Plex timestamps and view offsets are Python ints; they
  are modelled as `Int` (no overflow in Python).
-/

namespace PlexSync

/-- WatchedStatus from src/watched.py: completed flag, progress in ms, and an
optional last-viewed epoch. -/
structure WatchedStatus where
  completed : Bool
  time : Int
  last_viewed_at : Option Int := none
  deriving DecidableEq

/-- ServerSyncInfo from src/watched.py: the per-server ledger entry. -/
structure ServerSyncInfo where
  synced_at : Int
  synced_status : WatchedStatus
  deriving DecidableEq

/-- Lookup in an association list modelling a Python dict (first key wins). -/
def dictGet {α : Type} : List (String × α) → String → Option α
  | [], _ => none
  | (k, v) :: rest, key => if k = key then some v else dictGet rest key

/-- Python dict assignment `d[k] = v`: replace the entry in place if the key
exists, otherwise append. -/
def dictSet {α : Type} : List (String × α) → String → α → List (String × α)
  | [], key, v => [(key, v)]
  | (k, w) :: rest, key, v =>
    if k = key then (key, v) :: rest else (k, w) :: dictSet rest key v

/-- MediaIdentifiers from src/watched.py.  Playlist items are bare
MediaIdentifiers and carry their own ledger, hence the `synced_to_servers`
field here as in the source. -/
structure MediaIdentifiers where
  title : Option String := none
  locations : List String := []
  imdb_id : Option String := none
  tvdb_id : Option String := none
  tmdb_id : Option String := none
  plex_guid : Option String := none
  synced_to_servers : List (String × ServerSyncInfo) := []
  deriving DecidableEq

/-- MediaItem from src/watched.py. -/
structure MediaItem where
  identifiers : MediaIdentifiers
  status : WatchedStatus
  synced_to_servers : List (String × ServerSyncInfo) := []
  deriving DecidableEq

/-- Series from src/watched.py. -/
structure Series where
  identifiers : MediaIdentifiers
  episodes : List MediaItem := []
  deriving DecidableEq

/-- LibraryData from src/watched.py. -/
structure LibraryData where
  title : String
  movies : List MediaItem := []
  series : List Series := []
  deriving DecidableEq

/-- Python truthiness of an optional string: `None` and `""` are falsy. -/
def strTruthy : Option String → Bool
  | none => false
  | some s => !(s == "")

/-- One external-id clause of check_guid_match:
`ids1.x and ids2.x and ids1.x == ids2.x`. -/
def extIdHit (a b : Option String) : Bool :=
  strTruthy a && strTruthy b && a == b

/-- Python `split("://")` on a character list: non-overlapping, left to
right, with the accumulator holding the current piece reversed. -/
def splitScheme : List Char → List Char → List (List Char)
  | acc, [] => [acc.reverse]
  | acc, ':' :: '/' :: '/' :: rest => acc.reverse :: splitScheme [] rest
  | acc, c :: rest => splitScheme (c :: acc) rest

/-- Suffix form of a GUID: `guid.split("://")[-1]`, the substring after the
last `://` (the whole string when no separator occurs). -/
def guidSuffix (s : String) : List Char :=
  (splitScheme [] s.data).getLastD []

/-- check_guid_match from src/watched.py: external-id hit, then exact or
suffix-form plex-GUID hit. -/
def check_guid_match (ids1 ids2 : MediaIdentifiers) : Bool :=
  (extIdHit ids1.imdb_id ids2.imdb_id ||
   extIdHit ids1.tvdb_id ids2.tvdb_id ||
   extIdHit ids1.tmdb_id ids2.tmdb_id) ||
  (strTruthy ids1.plex_guid && strTruthy ids2.plex_guid &&
    (ids1.plex_guid == ids2.plex_guid ||
     guidSuffix (ids1.plex_guid.getD "") == guidSuffix (ids2.plex_guid.getD "")))

/-- Filename part of a location:
`l.replace("\\", "/").split("/")[-1]`, i.e. the characters after the last
separator, with both slash and backslash separating. -/
def baseName (s : String) : List Char :=
  s.data.foldl (fun acc c => if c = '/' || c = '\\' then [] else acc ++ [c]) []

/-- check_same_identifiers from src/watched.py: GUID check first, then the
filename-basename intersection check (Python set disjointness on the two
basename sets). -/
def check_same_identifiers (a b : MediaIdentifiers) : Bool :=
  check_guid_match a b ||
  (!a.locations.isEmpty && !b.locations.isEmpty &&
    a.locations.any (fun l1 => b.locations.any (fun l2 => baseName l1 == baseName l2)))

/-- Python `status.last_viewed_at or 0`. -/
def tsOf (st : WatchedStatus) : Int := st.last_viewed_at.getD 0

/-- Recent-change detection in merge_media_item_to_list: some ledger entry
whose recorded completed flag differs from the current one. -/
def hasRecentChange (it : MediaItem) : Bool :=
  it.synced_to_servers.any (fun e => e.2.synced_status.completed != it.status.completed)

/-- Conflict resolution of merge_media_item_to_list once a match is found:
`true` means the incoming (source) item replaces the stored (target) item. -/
def resolveConflict (target source : MediaItem) : Bool :=
  if hasRecentChange source && !hasRecentChange target then true
  else if hasRecentChange target && !hasRecentChange source then false
  else if tsOf source.status > tsOf target.status then true
  else if !target.status.completed && source.status.completed then true
  else if !target.status.completed && !source.status.completed &&
          source.status.time > target.status.time then true
  else false

/-- merge_media_item_to_list from src/watched.py: scan for the first stored
item with matching identifiers; on a match resolve the conflict (replacing in
place when the source wins); with no match append the source.  Returns the
updated list together with the boolean the Python function returns. -/
def merge_media_item_to_list : List MediaItem → MediaItem → List MediaItem × Bool
  | [], source => ([source], true)
  | t :: rest, source =>
    if check_same_identifiers t.identifiers source.identifiers then
      if resolveConflict t source then (source :: rest, true) else (t :: rest, false)
    else
      let r := merge_media_item_to_list rest source
      (t :: r.1, r.2)

/-- Per-item inclusion test of create_diff_library: no ledger entry for the
server, or recorded completed differs, or incomplete with progress drift of
at least 60000 ms. -/
def needsSync (server_id : String) (it : MediaItem) : Bool :=
  match dictGet it.synced_to_servers server_id with
  | none => true
  | some info =>
    if it.status.completed != info.synced_status.completed then true
    else if !it.status.completed && (it.status.time - info.synced_status.time).natAbs ≥ 60000 then
      true
    else false

/-- The movies create_diff_library collects for one server. -/
def diffMoviesD (global_lib : LibraryData) (server_id : String) : List MediaItem :=
  global_lib.movies.filter (needsSync server_id)

/-- The series create_diff_library collects for one server: each series keeps
the episodes needing sync and is included only when some episode remains. -/
def diffSeriesD (global_lib : LibraryData) (server_id : String) : List Series :=
  (global_lib.series.map
    (fun s => Series.mk s.identifiers (s.episodes.filter (needsSync server_id)))).filter
    (fun s => !s.episodes.isEmpty)

/-- create_diff_library from src/watched.py: the additions/updates payload
for one server, `none` when nothing needs syncing. -/
def create_diff_library (global_lib : LibraryData) (server_id : String) :
    Option LibraryData :=
  if (diffMoviesD global_lib server_id).isEmpty && (diffSeriesD global_lib server_id).isEmpty
  then none
  else some ⟨global_lib.title, diffMoviesD global_lib server_id, diffSeriesD global_lib server_id⟩

/-- One server as the prune/merge/diff stages of synchronize_watched see it
for a fixed (global user, global library): `snap = none` is a failed fetch,
`snap = some none` a reachable server whose snapshot lacks the user or the
library, `snap = some (some lib)` a server carrying both. -/
structure WServer where
  id : String
  snap : Option (Option LibraryData)

/-- The library a server effectively contributes for the fixed user+library. -/
def effLib (sv : WServer) : Option LibraryData :=
  match sv.snap with
  | some (some lib) => some lib
  | _ => none

/-- Tombstones recorded by the prune stage; the Python list holds MediaItem
and Series values, distinguished with isinstance. -/
inductive Tombstone
  | item (m : MediaItem)
  | series (s : Series)
  deriving DecidableEq

/-- The prune loop body for one movie and one server: the server carries the
user and library but its snapshot has no matching movie. -/
def serverMissingMovie (sv : WServer) (m : MediaItem) : Bool :=
  match sv.snap with
  | some (some lib) =>
    !lib.movies.any (fun sm => check_same_identifiers m.identifiers sm.identifiers)
  | _ => false

/-- Movie pruning of synchronize_watched step 2: a movie is removed (and
tombstoned) as soon as one connected server that has the user and library is
missing it. -/
def pruneMovies (servers : List WServer) (movies : List MediaItem) :
    List MediaItem × List Tombstone :=
  (movies.filter (fun m => !servers.any (fun sv => serverMissingMovie sv m)),
   (movies.filter (fun m => servers.any (fun sv => serverMissingMovie sv m))).map
     Tombstone.item)

/-- Series pruning of synchronize_watched step 2, one series against the
servers in order: a qualifying server without a matching series removes the
whole series; otherwise episodes missing from that server are pruned (and
tombstoned) and a series left with no episodes is removed.  Returns the
surviving series, if any, and the tombstones recorded. -/
def pruneSeriesStep : Series → List WServer → Option Series × List Tombstone
  | ser, [] => (some ser, [])
  | ser, sv :: rest =>
    match effLib sv with
    | none => pruneSeriesStep ser rest
    | some lib =>
      match lib.series.find?
          (fun ss => check_same_identifiers ser.identifiers ss.identifiers) with
      | none => (none, [Tombstone.series ser])
      | some smatch =>
        let keep := fun (e : MediaItem) =>
          smatch.episodes.any (fun se => check_same_identifiers e.identifiers se.identifiers)
        let removed := ser.episodes.filter (fun e => !keep e)
        let kept := ser.episodes.filter keep
        if kept.isEmpty then
          (none, removed.map Tombstone.item ++ [Tombstone.series ⟨ser.identifiers, kept⟩])
        else
          let r := pruneSeriesStep ⟨ser.identifiers, kept⟩ rest
          (r.1, removed.map Tombstone.item ++ r.2)

/-- The whole prune stage for one global library.  Tombstone order in the
Python list differs slightly (movie tombstones, then per-series episode
tombstones interleaved, then series tombstones per library); only membership
is ever consulted. -/
def pruneLibrary (servers : List WServer) (lib : LibraryData) :
    LibraryData × List Tombstone :=
  let pm := pruneMovies servers lib.movies
  let results := lib.series.map (fun s => pruneSeriesStep s servers)
  (⟨lib.title, pm.1, results.filterMap (fun r => r.1)⟩,
   pm.2 ++ (results.map (fun r => r.2)).flatten)

/-- Tombstone filter used for incoming movies and episodes in synchronize_watched
step 3: only MediaItem-kind tombstones are consulted. -/
def movieTombMatch (tombs : List Tombstone) (m : MediaItem) : Bool :=
  tombs.any (fun t =>
    match t with
    | Tombstone.item ti => check_same_identifiers m.identifiers ti.identifiers
    | Tombstone.series _ => false)

/-- Tombstone filter used for incoming series: only Series-kind tombstones
are consulted, compared on identifiers. -/
def seriesTombMatch (tombs : List Tombstone) (serIds : MediaIdentifiers) : Bool :=
  tombs.any (fun t =>
    match t with
    | Tombstone.series ts => check_same_identifiers serIds ts.identifiers
    | Tombstone.item _ => false)

/-- Merge a list of incoming movies (or episodes) into a global list,
skipping any incoming item that matches a MediaItem-kind tombstone. -/
def mergeMovies (tombs : List Tombstone) (gmovies : List MediaItem)
    (incoming : List MediaItem) : List MediaItem :=
  incoming.foldl
    (fun acc mov =>
      if movieTombMatch tombs mov then acc else (merge_media_item_to_list acc mov).1)
    gmovies

/-- Merge one incoming series: the first global series with matching
identifiers receives the episodes; otherwise a new series with the incoming
identifiers is appended and the episodes merged into it. -/
def mergeSeriesOne (tombs : List Tombstone) :
    List Series → Series → List Series
  | [], ser => [⟨ser.identifiers, mergeMovies tombs [] ser.episodes⟩]
  | g :: rest, ser =>
    if check_same_identifiers g.identifiers ser.identifiers then
      ⟨g.identifiers, mergeMovies tombs g.episodes ser.episodes⟩ :: rest
    else g :: mergeSeriesOne tombs rest ser

/-- Merge the incoming series list, skipping series that match a Series-kind
tombstone (their episodes are then never looked at). -/
def mergeSeries (tombs : List Tombstone) (gseries : List Series)
    (incoming : List Series) : List Series :=
  incoming.foldl
    (fun acc ser =>
      if seriesTombMatch tombs ser.identifiers then acc else mergeSeriesOne tombs acc ser)
    gseries

/-- Merge one server snapshot library into the global library. -/
def mergeLibrary (tombs : List Tombstone) (g : LibraryData) (incoming : LibraryData) :
    LibraryData :=
  ⟨g.title, mergeMovies tombs g.movies incoming.movies,
   mergeSeries tombs g.series incoming.series⟩

/-- synchronize_watched step 3 over all fetched snapshots, in server order. -/
def mergeStage (tombs : List Tombstone) (g : LibraryData) (servers : List WServer) :
    LibraryData :=
  servers.foldl
    (fun acc sv =>
      match effLib sv with
      | none => acc
      | some lib => mergeLibrary tombs acc lib)
    g

/-- Effective status identity used by the mark-already-synced pass (step 3.5):
equal completed flags and, when not completed, progress within 60000 ms.
Arguments in source order: server status first, global status second. -/
def statusAgree (s g : WatchedStatus) : Bool :=
  s.completed == g.completed && (s.completed || (s.time - g.time).natAbs < 60000)

/-- Stamp of a ledger entry with the global status at sync time. -/
def stampEntry (ts : Int) (sid : String) (g : MediaItem) : MediaItem :=
  { g with synced_to_servers := dictSet g.synced_to_servers sid ⟨ts, g.status⟩ }

/-- Step 3.5, one server movie against the global movie list: the first
matching global movie is stamped when the statuses agree, then the scan
stops (the break in the Python loop). -/
def markMovieOne (ts : Int) (sid : String) (smov : MediaItem) :
    List MediaItem → List MediaItem
  | [] => []
  | g :: rest =>
    if check_same_identifiers smov.identifiers g.identifiers then
      (if statusAgree smov.status g.status then stampEntry ts sid g else g) :: rest
    else g :: markMovieOne ts sid smov rest

/-- Step 3.5 for all movies of one server snapshot. -/
def markMovies (ts : Int) (sid : String) (gmovies smovies : List MediaItem) :
    List MediaItem :=
  smovies.foldl (fun acc sm => markMovieOne ts sid sm acc) gmovies

/-- Step 3.5, one server series: the first matching global series has its
episodes marked, then the scan stops. -/
def markSeriesOne (ts : Int) (sid : String) (sser : Series) :
    List Series → List Series
  | [] => []
  | g :: rest =>
    if check_same_identifiers sser.identifiers g.identifiers then
      ⟨g.identifiers, markMovies ts sid g.episodes sser.episodes⟩ :: rest
    else g :: markSeriesOne ts sid sser rest

/-- Step 3.5 for one server snapshot library. -/
def markLibrary (ts : Int) (sid : String) (g slib : LibraryData) : LibraryData :=
  ⟨g.title, markMovies ts sid g.movies slib.movies,
   slib.series.foldl (fun acc ss => markSeriesOne ts sid ss acc) g.series⟩

/-- Step 3.5 over all fetched snapshots. -/
def markStage (ts : Int) (g : LibraryData) (servers : List WServer) : LibraryData :=
  servers.foldl
    (fun acc sv =>
      match effLib sv with
      | none => acc
      | some lib => markLibrary ts sv.id acc lib)
    g

/-- The movies of the removal (unmark) payload: server movies with no
matching global counterpart. -/
def removalMovies (g slib : LibraryData) : List MediaItem :=
  slib.movies.filter
    (fun sm => !g.movies.any (fun gm => check_same_identifiers gm.identifiers sm.identifiers))

/-- The per-series entry of the removal payload: the whole server series when
no global series matches, otherwise its episodes with no global counterpart. -/
def removalSeriesOne (g : LibraryData) (ss : Series) : Option Series :=
  match g.series.find? (fun gs => check_same_identifiers gs.identifiers ss.identifiers) with
  | none => some ss
  | some gmatch =>
    if (ss.episodes.filter
        (fun se => !gmatch.episodes.any
          (fun ge => check_same_identifiers ge.identifiers se.identifiers))).isEmpty
    then none
    else some ⟨ss.identifiers, ss.episodes.filter
        (fun se => !gmatch.episodes.any
          (fun ge => check_same_identifiers ge.identifiers se.identifiers))⟩

/-- The series of the removal payload. -/
def removalSeries (g slib : LibraryData) : List Series :=
  slib.series.filterMap (removalSeriesOne g)

/-- Removal (unmark) payload of step 4 for one server: server items that are
watched on the server but have no matching global counterpart; whole series
when the series is gone globally, individual episodes otherwise. -/
def removalPayload (g slib : LibraryData) : Option LibraryData :=
  if (removalMovies g slib).isEmpty && (removalSeries g slib).isEmpty then none
  else some ⟨slib.title, removalMovies g slib, removalSeries g slib⟩

/-- Ledger stamping after a successful push, one payload movie: the first
matching global movie gets its ledger entry for this server set to its
current status (unconditionally). -/
def stampMovieOne (ts : Int) (sid : String) (dmov : MediaItem) :
    List MediaItem → List MediaItem
  | [] => []
  | g :: rest =>
    if check_same_identifiers dmov.identifiers g.identifiers then
      stampEntry ts sid g :: rest
    else g :: stampMovieOne ts sid dmov rest

/-- Ledger stamping after a push, one payload series. -/
def stampSeriesOne (ts : Int) (sid : String) (dser : Series) :
    List Series → List Series
  | [] => []
  | g :: rest =>
    if check_same_identifiers dser.identifiers g.identifiers then
      ⟨g.identifiers, dser.episodes.foldl (fun acc de => stampMovieOne ts sid de acc) g.episodes⟩ :: rest
    else g :: stampSeriesOne ts sid dser rest

/-- Ledger stamping for a whole additions payload. -/
def stampAfterPush (ts : Int) (sid : String) (g diff : LibraryData) : LibraryData :=
  ⟨g.title,
   diff.movies.foldl (fun acc dm => stampMovieOne ts sid dm acc) g.movies,
   diff.series.foldl (fun acc ds => stampSeriesOne ts sid ds acc) g.series⟩

/-- process_server_sync for one server: compute the additions/updates and
removal payloads; when anything is pushed, stamp the ledgers of the items in
the additions payload.  Servers without the user+library produce no payload
(the continue branches). -/
def syncServer (ts : Int) (g : LibraryData) (sv : WServer) :
    (Option LibraryData × Option LibraryData) × LibraryData :=
  match effLib sv with
  | none => ((none, none), g)
  | some slib =>
    match create_diff_library g sv.id with
    | none => ((none, removalPayload g slib), g)
    | some d => ((some d, removalPayload g slib), stampAfterPush ts sv.id g d)

/-- The global library after prune, merge and mark-already-synced. -/
def cycleStateAfterMark (ts : Int) (g : LibraryData) (servers : List WServer) :
    LibraryData :=
  markStage ts (mergeStage (pruneLibrary servers g).2 (pruneLibrary servers g).1 servers)
    servers

/-- Step 4 over all servers: accumulate the per-server payloads while the
ledger stamps mutate the state. -/
def pushFold (ts : Int) (g : LibraryData) (servers : List WServer) :
    List (String × (Option LibraryData × Option LibraryData)) × LibraryData :=
  servers.foldl
    (fun (acc : List (String × (Option LibraryData × Option LibraryData)) × LibraryData) sv =>
      (acc.1 ++ [(sv.id, (syncServer ts acc.2 sv).1)], (syncServer ts acc.2 sv).2))
    ([], g)

/-- One full watched-sync cycle on one (user, library): prune, merge,
mark-already-synced, then the per-server diff and push with ledger stamping.
Returns the final global library, the cycle tombstones, and the per-server
payloads (additions/updates, removals). -/
def runCycle (ts : Int) (g : LibraryData) (servers : List WServer) :
    LibraryData × List Tombstone ×
      List (String × (Option LibraryData × Option LibraryData)) :=
  ((pushFold ts (cycleStateAfterMark ts g servers) servers).2,
   (pruneLibrary servers g).2,
   (pushFold ts (cycleStateAfterMark ts g servers) servers).1)

/-- Playlist from src/playlists.py. -/
structure Playlist where
  title : String
  items : List MediaIdentifiers := []
  deriving DecidableEq

/-- merge_identifiers from src/playlists.py (pure version returning the
updated target): absent external ids are filled from the source and, when the
source has locations, the location tuple becomes `tuple(set(target + source))`
(modelled as dedup of the concatenation; only membership is ever used). -/
def merge_identifiers (target source : MediaIdentifiers) : MediaIdentifiers :=
  { target with
    imdb_id := if !strTruthy target.imdb_id && strTruthy source.imdb_id then
        source.imdb_id else target.imdb_id
    tvdb_id := if !strTruthy target.tvdb_id && strTruthy source.tvdb_id then
        source.tvdb_id else target.tvdb_id
    tmdb_id := if !strTruthy target.tmdb_id && strTruthy source.tmdb_id then
        source.tmdb_id else target.tmdb_id
    locations := if source.locations.isEmpty then target.locations
      else (target.locations ++ source.locations).dedup }

/-- One server as synchronize_playlists sees it for a fixed global user:
`playlists = none` models a server absent from the snapshot map or one whose
snapshot lacks the user; otherwise the per-title playlist map. -/
structure PlServer where
  id : String
  playlists : Option (List (String × Playlist))

/-- Update the playlist stored under a title (Python mutates the dict value
in place). -/
def plUpdate (l : List (String × Playlist)) (title : String)
    (f : Playlist → Playlist) : List (String × Playlist) :=
  l.map (fun p => if p.1 = title then (p.1, f p.2) else p)

/-- Deletion-detection test of synchronize_playlists phase 1: the item was
stamped for this server but no server item matches it now. -/
def plDeleted (sid : String) (sitems : List MediaIdentifiers)
    (it : MediaIdentifiers) : Bool :=
  (dictGet it.synced_to_servers sid).isSome &&
  !sitems.any (fun si => check_same_identifiers it si)

/-- Phase 1 of synchronize_playlists for one server: remove from the global
state every item stamped for this server that the server no longer reports,
and record it in the trashed registry (keyed here by playlist title; the
Python key is (user, title) and the model is per-user). -/
def plPhase1Server (sid : String) (spls : List (String × Playlist))
    (st : List (String × Playlist) × List (String × List MediaIdentifiers)) :
    List (String × Playlist) × List (String × List MediaIdentifiers) :=
  spls.foldl
    (fun acc sp =>
      match dictGet acc.1 sp.1 with
      | none => acc
      | some statePl =>
        let removed := statePl.items.filter (plDeleted sid sp.2.items)
        if removed.isEmpty then acc
        else
          (plUpdate acc.1 sp.1
             (fun pl => ⟨pl.title, pl.items.filter (fun it => !plDeleted sid sp.2.items it)⟩),
           dictSet acc.2 sp.1 ((dictGet acc.2 sp.1).getD [] ++ removed)))
    st

/-- Phase 2 merge of one incoming playlist item: skip when it matches a
trashed item for this playlist; merge identifiers into the first matching
stored item; otherwise append as new. -/
def plMergeItem (trashItems : List MediaIdentifiers) :
    List MediaIdentifiers → MediaIdentifiers → List MediaIdentifiers
  | items, sitem =>
    if trashItems.any (fun t => check_same_identifiers sitem t) then items
    else plMergeItemNoTrash items sitem
where
  plMergeItemNoTrash : List MediaIdentifiers → MediaIdentifiers → List MediaIdentifiers
    | [], sitem => [sitem]
    | g :: rest, sitem =>
      if check_same_identifiers sitem g then merge_identifiers g sitem :: rest
      else g :: plMergeItemNoTrash rest sitem

/-- Phase 2 of synchronize_playlists for one server: create missing playlist
containers, then merge every incoming item. -/
def plPhase2Server (trash : List (String × List MediaIdentifiers))
    (spls : List (String × Playlist)) (st : List (String × Playlist)) :
    List (String × Playlist) :=
  spls.foldl
    (fun acc sp =>
      let acc1 :=
        match dictGet acc sp.1 with
        | some _ => acc
        | none => acc ++ [(sp.1, ⟨sp.1, []⟩)]
      plUpdate acc1 sp.1
        (fun pl =>
          ⟨pl.title, sp.2.items.foldl (plMergeItem ((dictGet trash sp.1).getD [])) pl.items⟩))
    st

/-- Phase 3, one server item: stamp the first matching stored item as synced
to this server (the recorded status is the fixed completed=true, time=0
status the source writes for playlist items). -/
def plMarkOne (ts : Int) (sid : String) (si : MediaIdentifiers) :
    List MediaIdentifiers → List MediaIdentifiers
  | [] => []
  | g :: rest =>
    if check_same_identifiers si g then
      { g with synced_to_servers := dictSet g.synced_to_servers sid ⟨ts, ⟨true, 0, none⟩⟩ } :: rest
    else g :: plMarkOne ts sid si rest

/-- Phase 3 of synchronize_playlists for one server. -/
def plMarkServer (ts : Int) (sid : String) (spls : List (String × Playlist))
    (st : List (String × Playlist)) : List (String × Playlist) :=
  spls.foldl
    (fun acc sp =>
      match dictGet acc sp.1 with
      | none => acc
      | some _ =>
        plUpdate acc sp.1
          (fun pl => ⟨pl.title, sp.2.items.foldl (fun items si => plMarkOne ts sid si items) pl.items⟩))
    st

/-- Sync actions emitted by synchronize_playlists step 4 (delete_playlist is
declared by the source but never emitted). -/
inductive SyncAction
  | create (title : String)
  | add (title : String) (item : MediaIdentifiers)
  | remove (title : String) (item : MediaIdentifiers)
  | deletePl (title : String)
  deriving DecidableEq

/-- Step 4 of synchronize_playlists for one server: per global playlist, a
create action when the playlist is missing on the server, add actions for
unstamped global items with no server counterpart, remove actions for server
items with no global counterpart. -/
def plActions (sid : String) (spls : List (String × Playlist))
    (st : List (String × Playlist)) : List SyncAction :=
  st.foldl
    (fun acts entry =>
      let serverItems := match dictGet spls entry.1 with
        | none => []
        | some sp => sp.items
      let createActs : List SyncAction := match dictGet spls entry.1 with
        | none => [SyncAction.create entry.1]
        | some _ => []
      let addActs := entry.2.items.filterMap (fun g =>
        if (dictGet g.synced_to_servers sid).isSome then none
        else if serverItems.any (fun si => check_same_identifiers g si) then none
        else some (SyncAction.add entry.1 g))
      let removeActs : List SyncAction := match dictGet spls entry.1 with
        | none => []
        | some sp =>
          sp.items.filterMap (fun si =>
            if entry.2.items.any (fun g => check_same_identifiers si g) then none
            else some (SyncAction.remove entry.1 si))
      acts ++ createActs ++ addActs ++ removeActs)
    []

/-- synchronize_playlists from src/playlists.py, for one global user: the
four phases in source order (deletion detection over all servers, merge over
all servers, mark-already-synced, action computation).  Returns the new
state and the per-server action lists. -/
def synchronize_playlists (ts : Int) (prev : List (String × Playlist))
    (servers : List PlServer) :
    List (String × Playlist) × List (String × List SyncAction) :=
  let ph1 := servers.foldl
    (fun acc sv =>
      match sv.playlists with
      | none => acc
      | some spls => plPhase1Server sv.id spls acc)
    (prev, [])
  let ph2 := servers.foldl
    (fun acc sv =>
      match sv.playlists with
      | none => acc
      | some spls => plPhase2Server ph1.2 spls acc)
    ph1.1
  let ph3 := servers.foldl
    (fun acc sv =>
      match sv.playlists with
      | none => acc
      | some spls => plMarkServer ts sv.id spls acc)
    ph2
  (ph3,
   servers.filterMap (fun sv =>
     match sv.playlists with
     | none => none
     | some spls => some (sv.id, plActions sv.id spls ph3)))

/-- UserData from src/watched.py. -/
structure UserData where
  libraries : List (String × LibraryData) := []
  deriving DecidableEq

/-- WatchedState from src/watched.py. -/
structure WatchedState where
  users : List (String × UserData) := []
  deriving DecidableEq

/-- UserPlaylists from src/playlists.py. -/
structure UserPlaylists where
  playlists : List (String × Playlist) := []
  deriving DecidableEq

/-- PlaylistState from src/playlists.py. -/
structure PlaylistState where
  users : List (String × UserPlaylists) := []
  deriving DecidableEq

/-- How the body of the load try-block finishes.  `decodeError` models
json.load raising json.JSONDecodeError; `otherError` models any other
exception, in particular the pydantic validation of `WatchedState(**data)` or
`PlaylistState(**data)` rejecting well-formed JSON of the wrong shape;
`ok` models a successful parse and validation. -/
inductive ParseOutcome (σ : Type)
  | decodeError : ParseOutcome σ
  | otherError : ParseOutcome σ
  | ok (s : σ) : ParseOutcome σ
  deriving DecidableEq

/-- Result of a load: the returned state and whether the corrupted-file
backup was written. -/
structure LoadResult (σ : Type) where
  state : σ
  backedUp : Bool
  deriving DecidableEq

/-- load_watched_state / load_state from src/watched.py and src/playlists.py:
the file is `none` when absent, otherwise its contents; the branch structure
mirrors the source exactly (absent file, empty file, JSONDecodeError with
backup, any other exception without backup, success). -/
def loadState {σ : Type} (empty : σ) (parse : String → ParseOutcome σ)
    (file : Option String) : LoadResult σ :=
  match file with
  | none => ⟨empty, false⟩
  | some content =>
    if content.length = 0 then ⟨empty, false⟩
    else
      match parse content with
      | ParseOutcome.ok s => ⟨s, false⟩
      | ParseOutcome.decodeError => ⟨empty, true⟩
      | ParseOutcome.otherError => ⟨empty, false⟩

/-- load_watched_state, parameterized by the external json+pydantic parse. -/
def load_watched_state (parse : String → ParseOutcome WatchedState)
    (file : Option String) : LoadResult WatchedState :=
  loadState ⟨[]⟩ parse file

/-- load_state for playlists, parameterized likewise. -/
def load_state (parse : String → ParseOutcome PlaylistState)
    (file : Option String) : LoadResult PlaylistState :=
  loadState ⟨[]⟩ parse file

/-! Specification-side definitions, written from the claims' words, to be
compared with the source-side definitions above. -/

/-- Claim C5, match predicate as the specification states it: an external-id
hit, a native-GUID hit (literal or suffix-form), or intersecting non-empty
basename sets of the locations. -/
def specMatch (a b : MediaIdentifiers) : Prop :=
  (strTruthy a.imdb_id = true ∧ strTruthy b.imdb_id = true ∧ a.imdb_id = b.imdb_id) ∨
  (strTruthy a.tvdb_id = true ∧ strTruthy b.tvdb_id = true ∧ a.tvdb_id = b.tvdb_id) ∨
  (strTruthy a.tmdb_id = true ∧ strTruthy b.tmdb_id = true ∧ a.tmdb_id = b.tmdb_id) ∨
  (strTruthy a.plex_guid = true ∧ strTruthy b.plex_guid = true ∧
    (a.plex_guid = b.plex_guid ∨
     guidSuffix (a.plex_guid.getD "") = guidSuffix (b.plex_guid.getD ""))) ∨
  (a.locations ≠ [] ∧ b.locations ≠ [] ∧
    ∃ l1 ∈ a.locations, ∃ l2 ∈ b.locations, baseName l1 = baseName l2)

/-- Claim C1, conflict resolution exactly as the claim states it, with a
TWO-sided timestamp rule: after the recent-change rule, the side with the
strictly larger last_viewed_at wins outright, and only on a timestamp tie do
the completion and progress rules apply. -/
def claimResolveC1 (target source : MediaItem) : Bool :=
  if hasRecentChange source && !hasRecentChange target then true
  else if hasRecentChange target && !hasRecentChange source then false
  else if tsOf source.status > tsOf target.status then true
  else if tsOf target.status > tsOf source.status then false
  else if !target.status.completed && source.status.completed then true
  else if !target.status.completed && !source.status.completed &&
          source.status.time > target.status.time then true
  else false

/-- Claim C2, inclusion condition as the claim states it. -/
def specNeedsSync (sid : String) (it : MediaItem) : Prop :=
  dictGet it.synced_to_servers sid = none ∨
  ∃ info, dictGet it.synced_to_servers sid = some info ∧
    (info.synced_status.completed ≠ it.status.completed ∨
     (it.status.completed = false ∧ 60000 ≤ (it.status.time - info.synced_status.time).natAbs))

/-- Claim C3: a server whose snapshot is present, carrying the user and
library, whose library snapshot has no movie matching this one. -/
def serverLacksMovie (sv : WServer) (m : MediaItem) : Prop :=
  ∃ L, sv.snap = some (some L) ∧
    ∀ sm ∈ L.movies, check_same_identifiers m.identifiers sm.identifiers = false

/-- Claim C3: a qualifying server with no series matching these identifiers. -/
def serverLacksSeries (sv : WServer) (serIds : MediaIdentifiers) : Prop :=
  ∃ L, sv.snap = some (some L) ∧
    ∀ ss ∈ L.series, check_same_identifiers serIds ss.identifiers = false

/-- Claim C3: the episode is present (by match) in the matched copy of the
series on every qualifying server. -/
def epOnAllServers (servers : List WServer) (serIds : MediaIdentifiers)
    (e : MediaItem) : Bool :=
  servers.all (fun sv =>
    match effLib sv with
    | none => true
    | some L =>
      match L.series.find?
          (fun ss => check_same_identifiers serIds ss.identifiers) with
      | none => true
      | some smatch =>
        smatch.episodes.any (fun se => check_same_identifiers e.identifiers se.identifiers))

/-! Concrete inputs used by counterexamples and witnesses. -/

/-- Movie stored in the global state: incomplete, with the strictly larger
last_viewed_at. -/
def c1target : MediaItem :=
  ⟨{ imdb_id := some "tt1" }, ⟨false, 0, some 100⟩, []⟩

/-- Incoming copy of the same movie: completed, older timestamp, no ledger. -/
def c1source : MediaItem :=
  ⟨{ imdb_id := some "tt1" }, ⟨true, 0, none⟩, []⟩

/-- Stored item that wins its conflict: completed, newer timestamp, one
location. -/
def c6target : MediaItem :=
  ⟨{ locations := ["a.mkv"], imdb_id := some "tt2" }, ⟨true, 0, some 50⟩, []⟩

/-- Incoming copy carrying a location the stored item lacks. -/
def c6source : MediaItem :=
  ⟨{ locations := ["b.mkv"], imdb_id := some "tt2" }, ⟨true, 0, some 10⟩, []⟩

/-- Incoming item with no usable identifier at all (claim C8). -/
def c8item : MediaItem :=
  ⟨{ title := some "Mystery" }, ⟨true, 0, none⟩, []⟩

/-- A watched movie reported by server A only (claim C7). -/
def movM : MediaItem := ⟨{ imdb_id := some "tt1" }, ⟨true, 0, some 10⟩, []⟩

/-- Snapshot library of server A: it has the movie. -/
def libA : LibraryData := ⟨"Movies", [movM], []⟩

/-- Snapshot library of server B: same user and library, no items. -/
def libB : LibraryData := ⟨"Movies", [], []⟩

/-- Server A for claim C7. -/
def svA : WServer := ⟨"A", some (some libA)⟩

/-- Server B for claim C7. -/
def svB : WServer := ⟨"B", some (some libB)⟩

/-- Initially empty global library for claim C7. -/
def g0 : LibraryData := ⟨"Movies", [], []⟩

/-- The global state after the first cycle of claim C7. -/
def c7afterCycle1 : LibraryData := (runCycle 100 g0 [svA, svB]).1

/-- The per-server payloads of the second cycle of claim C7, run over the
same snapshots. -/
def c7secondPayloads : List (String × (Option LibraryData × Option LibraryData)) :=
  (runCycle 200 c7afterCycle1 [svA, svB]).2.2

/-- A parse model on which json decoding succeeds but state validation
raises (the generic except-branch of the loaders): every content is
classified otherError. -/
def c9invalidSchema : String → ParseOutcome WatchedState :=
  fun _ => ParseOutcome.otherError

/-- Movies of an optional additions/updates payload (no payload, no movies). -/
def payloadMovies : Option LibraryData → List MediaItem
  | none => []
  | some l => l.movies

/-- Series of an optional additions/updates payload. -/
def payloadSeries : Option LibraryData → List Series
  | none => []
  | some l => l.series

/-- Ledger entry whose recorded status agrees on completed and is within the
progress threshold of the current status (claim C2 witness input). -/
def c2info : ServerSyncInfo := ⟨1, ⟨false, 70000, none⟩⟩

/-- A movie whose ledger entry for server A agrees on completed and drifts by
only 30000 ms. -/
def c2movie : MediaItem :=
  ⟨{ imdb_id := some "tt9" }, ⟨false, 100000, none⟩, [("A", c2info)]⟩

/-- Global library holding only that movie. -/
def c2lib : LibraryData := ⟨"Lib", [c2movie], []⟩

/-- A parse model on which json decoding itself fails for every content. -/
def c9decodeFail : String → ParseOutcome WatchedState :=
  fun _ => ParseOutcome.decodeError

/-- The playlist-side analogue of c9decodeFail. -/
def c9decodeFailPl : String → ParseOutcome PlaylistState :=
  fun _ => ParseOutcome.decodeError

/-- Episode present on every server (claim C3 witness input). -/
def epE : MediaItem := ⟨{ imdb_id := some "ep1" }, ⟨true, 0, none⟩, []⟩

/-- Episode absent from the server snapshot (claim C3 witness input). -/
def epF : MediaItem := ⟨{ imdb_id := some "ep2" }, ⟨false, 120000, none⟩, []⟩

/-- Global series holding both episodes. -/
def serS : Series := ⟨{ tvdb_id := some "tv1" }, [epE, epF]⟩

/-- The copy of the series on server C: only epE. -/
def serCcopy : Series := ⟨{ tvdb_id := some "tv1" }, [epE]⟩

/-- Snapshot library of server C. -/
def libC : LibraryData := ⟨"TV", [], [serCcopy]⟩

/-- Snapshot library of server D: the series is absent entirely. -/
def libD : LibraryData := ⟨"TV", [], []⟩

/-- Server C: carries the series with only one episode. -/
def svC : WServer := ⟨"C", some (some libC)⟩

/-- Server D: carries the user and library but not the series. -/
def svD : WServer := ⟨"D", some (some libD)⟩

/-- Server E: its fetch failed this cycle. -/
def svE : WServer := ⟨"E", none⟩

/-- A global library used to exercise the prune stage. -/
def c3lib : LibraryData := ⟨"TV", [movM], [serS]⟩

/-- Tombstones recorded in a cycle (claim C4 witness input). -/
def c4tombs : List Tombstone := [Tombstone.item movM, Tombstone.series serS]

/-- Two identifier bags that match in neither direction. -/
def bothNoMatch (x y : MediaIdentifiers) : Prop :=
  check_same_identifiers x y = false ∧ check_same_identifiers y x = false

/-- Two identifier bags that agree on every matching-relevant field (all but
the per-item ledger). -/
def eqIdent (a b : MediaIdentifiers) : Prop :=
  a.title = b.title ∧ a.locations = b.locations ∧ a.imdb_id = b.imdb_id ∧
  a.tvdb_id = b.tvdb_id ∧ a.tmdb_id = b.tmdb_id ∧ a.plex_guid = b.plex_guid

/-- A function that only rewrites an item's ledger. -/
def ledgerOnly (f : MediaItem → MediaItem) : Prop :=
  ∀ x, (f x).identifiers = x.identifiers ∧ (f x).status = x.status

/-- Apply a per-item transformation to every movie and episode of a library. -/
def libMap (f : MediaItem → MediaItem) (G : LibraryData) : LibraryData :=
  ⟨G.title, G.movies.map f,
   G.series.map (fun s => ⟨s.identifiers, s.episodes.map f⟩)⟩

/-- The ledger stamps an item accumulates during the mark pass: one entry per
server whose snapshot is present, in server order. -/
def stampServers (ts : Int) (servers : List WServer) (m : MediaItem) : MediaItem :=
  servers.foldl
    (fun x sv =>
      match effLib sv with
      | none => x
      | some _ => stampEntry ts sv.id x)
    m

/-- A global movie in agreement everywhere (claim C7 witness input). -/
def c7mov : MediaItem := ⟨{ imdb_id := some "tt1" }, ⟨true, 0, some 10⟩, []⟩

/-- The converged global library for the C7 witness. -/
def c7glib : LibraryData := ⟨"Movies", [c7mov], []⟩

/-- Server A2 reports exactly the global library. -/
def svA2 : WServer := ⟨"A", some (some c7glib)⟩

/-- Server F failed to fetch. -/
def svF : WServer := ⟨"F", none⟩

/-- A playlist item for the C7 witness. -/
def c7pitem : MediaIdentifiers := { imdb_id := some "tt5" }

/-- The converged global playlist state for the C7 witness. -/
def c7gpl : List (String × Playlist) := [("Faves", ⟨"Faves", [c7pitem]⟩)]

/-- Playlist server P1 reports exactly the global playlists. -/
def svP1 : PlServer := ⟨"P1", some c7gpl⟩

/-- Playlist server P2 has no snapshot. -/
def svP2 : PlServer := ⟨"P2", none⟩

/-- The ledger stamp the playlist mark pass writes on an item. -/
def plStamp (ts : Int) (sid : String) (g : MediaIdentifiers) : MediaIdentifiers :=
  { g with synced_to_servers :=
      dictSet g.synced_to_servers sid ⟨ts, ⟨true, 0, none⟩⟩ }

/-- The current copy of a playlist item keeps every matching-relevant field
of the original (only the ledger may differ). -/
def fieldsPres (a b : MediaIdentifiers) : Prop :=
  b.locations = a.locations ∧ b.imdb_id = a.imdb_id ∧ b.tvdb_id = a.tvdb_id ∧
  b.tmdb_id = a.tmdb_id ∧ b.plex_guid = a.plex_guid

/-- Positionwise field preservation of a playlist item list. -/
def itemsPres : List MediaIdentifiers → List MediaIdentifiers → Prop :=
  List.Forall₂ fieldsPres

/-- Positionwise field preservation of a per-user playlist state. -/
def statePres (orig cur : List (String × Playlist)) : Prop :=
  List.Forall₂ (fun e e2 => e2.1 = e.1 ∧ itemsPres e.2.items e2.2.items) orig cur

-- THEOREMS

theorem check_same_identifiers_iff (a b : MediaIdentifiers) :
    check_same_identifiers a b = true ↔ specMatch a b := by
  simp only [check_same_identifiers, check_guid_match, extIdHit, specMatch,
    Bool.or_eq_true, Bool.and_eq_true, List.any_eq_true, beq_iff_eq,
    Bool.not_eq_true', List.isEmpty_eq_false, ne_eq, List.isEmpty_iff]
  simp only [or_assoc, and_assoc]

theorem specMatch_symm (a b : MediaIdentifiers) : specMatch a b ↔ specMatch b a := by
  unfold specMatch
  constructor <;>
    (rintro (⟨h1, h2, h3⟩ | ⟨h1, h2, h3⟩ | ⟨h1, h2, h3⟩ | ⟨h1, h2, h3⟩ |
       ⟨h1, h2, l1, hl1, l2, hl2, h3⟩)) <;>
    [exact Or.inl ⟨h2, h1, h3.symm⟩;
     exact Or.inr (Or.inl ⟨h2, h1, h3.symm⟩);
     exact Or.inr (Or.inr (Or.inl ⟨h2, h1, h3.symm⟩));
     exact Or.inr (Or.inr (Or.inr (Or.inl ⟨h2, h1, h3.imp Eq.symm Eq.symm⟩)));
     exact Or.inr (Or.inr (Or.inr (Or.inr ⟨h2, h1, l2, hl2, l1, hl1, h3.symm⟩)));
     exact Or.inl ⟨h2, h1, h3.symm⟩;
     exact Or.inr (Or.inl ⟨h2, h1, h3.symm⟩);
     exact Or.inr (Or.inr (Or.inl ⟨h2, h1, h3.symm⟩));
     exact Or.inr (Or.inr (Or.inr (Or.inl ⟨h2, h1, h3.imp Eq.symm Eq.symm⟩)));
     exact Or.inr (Or.inr (Or.inr (Or.inr ⟨h2, h1, l2, hl2, l1, hl1, h3.symm⟩)))]

theorem check_same_identifiers_symm (a b : MediaIdentifiers) :
    check_same_identifiers a b = check_same_identifiers b a := by
  rw [Bool.eq_iff_iff, check_same_identifiers_iff, check_same_identifiers_iff]
  exact specMatch_symm a b

/-- C5: check_same_identifiers(a, b) holds iff some external id is non-empty
on both sides and equal, or both sides have a native GUID equal literally or
in suffix form, or the basename sets of the locations are non-empty and
intersect; equal titles alone never produce a match (the result does not
depend on the titles at all); and the relation is symmetric. -/
theorem claim_C5 :
    (∀ a b, check_same_identifiers a b = true ↔ specMatch a b) ∧
    (∀ a b, check_same_identifiers a b = check_same_identifiers b a) ∧
    (∀ a b t1 t2,
      check_same_identifiers { a with title := t1 } { b with title := t2 } =
        check_same_identifiers a b) :=
  ⟨check_same_identifiers_iff, check_same_identifiers_symm, fun _ _ _ _ => rfl⟩

theorem resolveConflict_iff (target source : MediaItem) :
    resolveConflict target source = true ↔
      ((hasRecentChange source = true ∧ hasRecentChange target = false) ∨
       (hasRecentChange source = hasRecentChange target ∧
         (tsOf source.status > tsOf target.status ∨
          (tsOf source.status ≤ tsOf target.status ∧
            ((target.status.completed = false ∧ source.status.completed = true) ∨
             (target.status.completed = false ∧ source.status.completed = false ∧
              source.status.time > target.status.time)))))) := by
  unfold resolveConflict
  cases hs : hasRecentChange source <;> cases ht : hasRecentChange target <;>
    cases tc : target.status.completed <;> cases sc : source.status.completed <;>
      simp only [hs, ht, tc, sc, Bool.not_true, Bool.not_false, Bool.and_true,
        Bool.and_false, Bool.true_and, Bool.false_and, if_true, if_false,
        Bool.false_eq_true, Bool.true_eq_false, and_true, and_false, false_and,
        true_and, and_self, or_false, false_or] <;>
      split_ifs <;> simp_all

/-- C1 counterexample: no side has a recent change and the stored item has the
strictly larger last_viewed_at, so by the claim the stored item must win; the
code instead lets the completed incoming copy replace it. -/
theorem claim_C1_counterexample :
    check_same_identifiers c1target.identifiers c1source.identifiers = true ∧
    tsOf c1target.status > tsOf c1source.status ∧
    hasRecentChange c1target = false ∧ hasRecentChange c1source = false ∧
    claimResolveC1 c1target c1source = false ∧
    resolveConflict c1target c1source = true ∧
    merge_media_item_to_list [c1target] c1source = ([c1source], true) := by
  decide

/-- C1 (amended): the timestamp rule is one-sided.  The incoming item becomes
the stored item iff exactly the incoming side has a recent change, or (when
recent-change detection ties) the incoming last_viewed_at is strictly larger,
or (still under a tie, and even when the stored last_viewed_at is strictly
larger) the stored item is not completed and the incoming one is, or both are
not completed and the incoming time is strictly larger; otherwise the stored
item is kept.  On a match the winner becomes the stored item. -/
theorem claim_C1 :
    (∀ target source : MediaItem,
      resolveConflict target source = true ↔
        ((hasRecentChange source = true ∧ hasRecentChange target = false) ∨
         (hasRecentChange source = hasRecentChange target ∧
           (tsOf source.status > tsOf target.status ∨
            (tsOf source.status ≤ tsOf target.status ∧
              ((target.status.completed = false ∧ source.status.completed = true) ∨
               (target.status.completed = false ∧ source.status.completed = false ∧
                source.status.time > target.status.time))))))) ∧
    (∀ (t s : MediaItem) (rest : List MediaItem),
      check_same_identifiers t.identifiers s.identifiers = true →
        merge_media_item_to_list (t :: rest) s =
          if resolveConflict t s then (s :: rest, true) else (t :: rest, false)) := by
  refine ⟨resolveConflict_iff, fun t s rest h => ?_⟩
  simp [merge_media_item_to_list, h]

theorem claim_C1_witness :
    check_same_identifiers c1target.identifiers c1source.identifiers = true ∧
    merge_media_item_to_list [c1target] c1source =
      (if resolveConflict c1target c1source then ([c1source], true)
       else ([c1target], false)) :=
  ⟨by decide, claim_C1.2 c1target c1source [] (by decide)⟩

/-- C10: when the incoming item wins, the stored item is replaced wholesale:
the list slot holds exactly the incoming item, whose ledger map (all of it,
entries for other servers included) and identifiers substitute the stored
ones. -/
theorem claim_C10 (pre post : List MediaItem) (t s : MediaItem)
    (hpre : ∀ u ∈ pre, check_same_identifiers u.identifiers s.identifiers = false)
    (ht : check_same_identifiers t.identifiers s.identifiers = true)
    (hw : resolveConflict t s = true) :
    merge_media_item_to_list (pre ++ t :: post) s = (pre ++ s :: post, true) ∧
    (∀ m, (pre ++ s :: post)[pre.length]? = some m →
      m.synced_to_servers = s.synced_to_servers ∧ m.identifiers = s.identifiers ∧
      m.status = s.status) := by
  constructor
  · induction pre with
    | nil => simp [merge_media_item_to_list, ht, hw]
    | cons u pre ih =>
      have hu := hpre u (List.mem_cons_self u pre)
      have ih' := ih (fun v hv => hpre v (List.mem_cons_of_mem u hv))
      simp [merge_media_item_to_list, hu, ih']
  · intro m hm
    rw [List.getElem?_append_right (le_refl pre.length)] at hm
    simp at hm
    simp [← hm]

theorem claim_C10_witness :
    merge_media_item_to_list [c1target] c1source = ([c1source], true) ∧
    c1source.synced_to_servers = c1source.synced_to_servers :=
  ⟨by
    have h := claim_C10 [] [] c1target c1source (by simp) (by decide) (by decide)
    simpa using h.1,
   rfl⟩

/-- C6 counterexample: the stored item wins the conflict, yet its identifiers
are not enriched: the incoming location never reaches the stored item, so the
stored location set is not a superset of the incoming operand's. -/
theorem claim_C6_counterexample :
    check_same_identifiers c6target.identifiers c6source.identifiers = true ∧
    resolveConflict c6target c6source = false ∧
    merge_media_item_to_list [c6target] c6source = ([c6target], false) ∧
    "b.mkv" ∈ c6source.identifiers.locations ∧
    "b.mkv" ∉ c6target.identifiers.locations := by
  decide

/-- C6 (amended): identifier enrichment happens only in the playlist merge
through merge_identifiers, where an absent imdb/tvdb/tmdb id is filled from
the incoming copy, a present one is never dropped, and the location set
becomes the union of both operands (a superset of each).  In the watched
merge, when the existing stored item wins, it is kept entirely unchanged, so
nothing is dropped but nothing is enriched either. -/
theorem claim_C6 :
    (∀ t s : MediaIdentifiers,
      (strTruthy t.imdb_id = true → (merge_identifiers t s).imdb_id = t.imdb_id) ∧
      (strTruthy t.imdb_id = false → strTruthy s.imdb_id = true →
        (merge_identifiers t s).imdb_id = s.imdb_id) ∧
      (strTruthy t.tvdb_id = true → (merge_identifiers t s).tvdb_id = t.tvdb_id) ∧
      (strTruthy t.tvdb_id = false → strTruthy s.tvdb_id = true →
        (merge_identifiers t s).tvdb_id = s.tvdb_id) ∧
      (strTruthy t.tmdb_id = true → (merge_identifiers t s).tmdb_id = t.tmdb_id) ∧
      (strTruthy t.tmdb_id = false → strTruthy s.tmdb_id = true →
        (merge_identifiers t s).tmdb_id = s.tmdb_id) ∧
      (∀ l, l ∈ (merge_identifiers t s).locations ↔
        l ∈ t.locations ∨ l ∈ s.locations)) ∧
    (∀ (trashItems : List MediaIdentifiers) (g : MediaIdentifiers)
        (rest : List MediaIdentifiers) (sitem : MediaIdentifiers),
      trashItems.any (fun x => check_same_identifiers sitem x) = false →
      check_same_identifiers sitem g = true →
      plMergeItem trashItems (g :: rest) sitem = merge_identifiers g sitem :: rest) ∧
    (∀ (t s : MediaItem) (rest : List MediaItem),
      check_same_identifiers t.identifiers s.identifiers = true →
      resolveConflict t s = false →
      merge_media_item_to_list (t :: rest) s = (t :: rest, false)) := by
  refine ⟨fun t s => ?_, fun trash g rest sitem htr hm => ?_, fun t s rest hm hr => ?_⟩
  · refine ⟨fun h => by simp [merge_identifiers, h],
      fun h h' => by simp [merge_identifiers, h, h'],
      fun h => by simp [merge_identifiers, h],
      fun h h' => by simp [merge_identifiers, h, h'],
      fun h => by simp [merge_identifiers, h],
      fun h h' => by simp [merge_identifiers, h, h'],
      fun l => ?_⟩
    unfold merge_identifiers
    by_cases hs : s.locations = []
    · simp [hs]
    · have hne : s.locations.isEmpty = false := by simpa [List.isEmpty_iff] using hs
      simp [hne, List.mem_dedup, List.mem_append]
  · simp [plMergeItem, htr, plMergeItem.plMergeItemNoTrash, hm]
  · simp [merge_media_item_to_list, hm, hr]

theorem claim_C6_witness :
    plMergeItem [] [c6target.identifiers] c6source.identifiers =
      [merge_identifiers c6target.identifiers c6source.identifiers] ∧
    merge_media_item_to_list [c6target] c6source = ([c6target], false) ∧
    ("b.mkv" ∈ (merge_identifiers c6target.identifiers c6source.identifiers).locations ↔
      "b.mkv" ∈ c6target.identifiers.locations ∨ "b.mkv" ∈ c6source.identifiers.locations) :=
  ⟨claim_C6.2.1 [] c6target.identifiers [] c6source.identifiers (by decide) (by decide),
   claim_C6.2.2 c6target c6source [] (by decide) (by decide),
   (claim_C6.1 c6target.identifiers c6source.identifiers).2.2.2.2.2.2 "b.mkv"⟩

/-- C8 counterexample: an incoming item with no GUID, no external id and no
locations is not skipped on ingest: merging it into the empty global list
appends it, so the global state changes. -/
theorem claim_C8_counterexample :
    strTruthy c8item.identifiers.imdb_id = false ∧
    strTruthy c8item.identifiers.tvdb_id = false ∧
    strTruthy c8item.identifiers.tmdb_id = false ∧
    strTruthy c8item.identifiers.plex_guid = false ∧
    c8item.identifiers.locations = [] ∧
    merge_media_item_to_list [] c8item = ([c8item], true) := by
  decide

/-- C8 (amended): an item with no GUID, no external ids and no locations
matches nothing (so it can never merge into, or displace, an existing item),
but it is not skipped: merge_media_item_to_list always appends it as a new
entry, changing the global state. -/
theorem claim_C8 (b : MediaIdentifiers)
    (h1 : strTruthy b.imdb_id = false) (h2 : strTruthy b.tvdb_id = false)
    (h3 : strTruthy b.tmdb_id = false) (h4 : strTruthy b.plex_guid = false)
    (h5 : b.locations = []) :
    (∀ c, check_same_identifiers b c = false ∧ check_same_identifiers c b = false) ∧
    (∀ (L : List MediaItem) (st : WatchedStatus) (led : List (String × ServerSyncInfo)),
      merge_media_item_to_list L ⟨b, st, led⟩ = (L ++ [⟨b, st, led⟩], true)) := by
  have hmatch : ∀ c, check_same_identifiers b c = false ∧ check_same_identifiers c b = false := by
    intro c
    constructor <;> simp [check_same_identifiers, check_guid_match, extIdHit, h1, h2, h3, h4, h5]
  refine ⟨hmatch, fun L st led => ?_⟩
  induction L with
  | nil => rfl
  | cons t rest ih => simp [merge_media_item_to_list, (hmatch t.identifiers).2, ih]

theorem claim_C8_witness :
    check_same_identifiers c8item.identifiers c1target.identifiers = false ∧
    merge_media_item_to_list [c1target] ⟨c8item.identifiers, c8item.status, []⟩ =
      ([c1target, ⟨c8item.identifiers, c8item.status, []⟩], true) :=
  ⟨((claim_C8 c8item.identifiers (by decide) (by decide) (by decide) (by decide)
      (by decide)).1 c1target.identifiers).1,
   (claim_C8 c8item.identifiers (by decide) (by decide) (by decide) (by decide)
      (by decide)).2 [c1target] c8item.status []⟩

theorem needsSync_iff (sid : String) (it : MediaItem) :
    needsSync sid it = true ↔ specNeedsSync sid it := by
  unfold needsSync specNeedsSync
  cases h : dictGet it.synced_to_servers sid with
  | none => simp
  | some info =>
    cases tc : it.status.completed <;> cases ic : info.synced_status.completed <;>
      simp [tc, ic, ge_iff_le]

theorem payloadMovies_eq (G : LibraryData) (sid : String) :
    payloadMovies (create_diff_library G sid) = diffMoviesD G sid := by
  unfold create_diff_library
  split_ifs with h
  · rw [Bool.and_eq_true] at h
    simp [payloadMovies, List.isEmpty_iff.mp h.1]
  · rfl

theorem payloadSeries_eq (G : LibraryData) (sid : String) :
    payloadSeries (create_diff_library G sid) = diffSeriesD G sid := by
  unfold create_diff_library
  split_ifs with h
  · rw [Bool.and_eq_true] at h
    simp [payloadSeries, List.isEmpty_iff.mp h.2]
  · rfl

/-- C2: a global movie is in the additions/updates payload for a server iff
the server has no ledger entry, or the recorded completed flag differs, or
the item is incomplete with at least 60000 ms of progress drift; an episode
is in some payload series iff it lies in some global series and satisfies
the same condition; in particular an item whose ledger entry agrees on
completed and drifts by strictly less than 60000 ms generates no update. -/
theorem claim_C2 :
    (∀ (G : LibraryData) (sid : String) (m : MediaItem),
      m ∈ payloadMovies (create_diff_library G sid) ↔
        m ∈ G.movies ∧ specNeedsSync sid m) ∧
    (∀ (G : LibraryData) (sid : String) (e : MediaItem),
      (∃ t ∈ payloadSeries (create_diff_library G sid), e ∈ t.episodes) ↔
        ((∃ s ∈ G.series, e ∈ s.episodes) ∧ specNeedsSync sid e)) ∧
    (∀ (G : LibraryData) (sid : String) (m : MediaItem) (info : ServerSyncInfo),
      dictGet m.synced_to_servers sid = some info →
      info.synced_status.completed = m.status.completed →
      (m.status.time - info.synced_status.time).natAbs < 60000 →
      m ∉ payloadMovies (create_diff_library G sid)) := by
  have part1 : ∀ (G : LibraryData) (sid : String) (m : MediaItem),
      m ∈ payloadMovies (create_diff_library G sid) ↔
        m ∈ G.movies ∧ specNeedsSync sid m := by
    intro G sid m
    rw [payloadMovies_eq, diffMoviesD, List.mem_filter, needsSync_iff]
  refine ⟨part1, fun G sid e => ?_, fun G sid m info hg hc hlt hmem => ?_⟩
  · rw [payloadSeries_eq]
    unfold diffSeriesD
    constructor
    · rintro ⟨t, ht, he⟩
      rw [List.mem_filter] at ht
      obtain ⟨s, hs, rfl⟩ := List.mem_map.mp ht.1
      simp only [List.mem_filter] at he
      exact ⟨⟨s, hs, he.1⟩, (needsSync_iff sid e).mp he.2⟩
    · rintro ⟨⟨s, hs, he⟩, hn⟩
      refine ⟨⟨s.identifiers, s.episodes.filter (needsSync sid)⟩, ?_, ?_⟩
      · rw [List.mem_filter]
        refine ⟨List.mem_map.mpr ⟨s, hs, rfl⟩, ?_⟩
        simp [List.isEmpty_iff]
        exact ⟨e, he, (needsSync_iff sid e).mpr hn⟩
      · exact List.mem_filter.mpr ⟨he, (needsSync_iff sid e).mpr hn⟩
  · rcases (part1 G sid m).mp hmem with ⟨-, hspec⟩
    rcases hspec with h | ⟨info', hinfo', hbad⟩
    · rw [hg] at h
      cases h
    · rw [hg] at hinfo'
      cases hinfo'
      rcases hbad with h | ⟨hnc, hge⟩
      · exact h hc
      · omega

theorem claim_C2_witness :
    dictGet c2movie.synced_to_servers "A" = some c2info ∧
    c2movie ∉ payloadMovies (create_diff_library c2lib "A") :=
  ⟨by decide,
   claim_C2.2.2 c2lib "A" c2movie c2info (by decide) (by decide) (by decide)⟩

/-- C9 counterexample: contents that json-decode but fail state validation
land in the generic except branch: the loader returns the empty state but
does NOT write the corrupted-file backup, although the contents failed to
parse into a valid state. -/
theorem claim_C9_counterexample :
    (∀ s, c9invalidSchema "x" ≠ ParseOutcome.ok s) ∧
    load_watched_state c9invalidSchema (some "x") =
      ⟨⟨[]⟩, false⟩ := by
  constructor
  · intro s h
    cases h
  · decide

/-- C9 (amended): both loaders return the empty state when the file is
absent or has size zero and never raise; the corrupted-file backup is
written exactly when JSON decoding fails; any other load failure (in
particular state validation rejecting decoded JSON) also returns the empty
state but writes no backup. -/
theorem claim_C9 :
    (∀ parse, load_watched_state parse none = ⟨⟨[]⟩, false⟩) ∧
    (∀ parse c, c.length = 0 → load_watched_state parse (some c) = ⟨⟨[]⟩, false⟩) ∧
    (∀ parse c, c.length ≠ 0 → parse c = ParseOutcome.decodeError →
      load_watched_state parse (some c) = ⟨⟨[]⟩, true⟩) ∧
    (∀ parse c, c.length ≠ 0 → parse c = ParseOutcome.otherError →
      load_watched_state parse (some c) = ⟨⟨[]⟩, false⟩) ∧
    (∀ parse c s, c.length ≠ 0 → parse c = ParseOutcome.ok s →
      load_watched_state parse (some c) = ⟨s, false⟩) ∧
    (∀ parse, load_state parse none = ⟨⟨[]⟩, false⟩) ∧
    (∀ parse c, c.length = 0 → load_state parse (some c) = ⟨⟨[]⟩, false⟩) ∧
    (∀ parse c, c.length ≠ 0 → parse c = ParseOutcome.decodeError →
      load_state parse (some c) = ⟨⟨[]⟩, true⟩) ∧
    (∀ parse c, c.length ≠ 0 → parse c = ParseOutcome.otherError →
      load_state parse (some c) = ⟨⟨[]⟩, false⟩) ∧
    (∀ parse c s, c.length ≠ 0 → parse c = ParseOutcome.ok s →
      load_state parse (some c) = ⟨s, false⟩) := by
  refine ⟨fun parse => rfl,
    fun parse c h => by simp [load_watched_state, loadState, h],
    fun parse c h hp => by simp [load_watched_state, loadState, h, hp],
    fun parse c h hp => by simp [load_watched_state, loadState, h, hp],
    fun parse c s h hp => by simp [load_watched_state, loadState, h, hp],
    fun parse => rfl,
    fun parse c h => by simp [load_state, loadState, h],
    fun parse c h hp => by simp [load_state, loadState, h, hp],
    fun parse c h hp => by simp [load_state, loadState, h, hp],
    fun parse c s h hp => by simp [load_state, loadState, h, hp]⟩

theorem claim_C9_witness :
    "x".length ≠ 0 ∧
    c9decodeFail "x" = ParseOutcome.decodeError ∧
    load_watched_state c9decodeFail (some "x") = ⟨⟨[]⟩, true⟩ ∧
    load_state c9decodeFailPl (some "x") = ⟨⟨[]⟩, true⟩ :=
  ⟨by decide, rfl,
   claim_C9.2.2.1 c9decodeFail "x" (by decide) rfl,
   claim_C9.2.2.2.2.2.2.2.1 c9decodeFailPl "x" (by decide) rfl⟩


theorem serverMissingMovie_iff (sv : WServer) (m : MediaItem) :
    serverMissingMovie sv m = true ↔ serverLacksMovie sv m := by
  unfold serverMissingMovie serverLacksMovie
  cases hs : sv.snap with
  | none => simp
  | some o =>
    cases o with
    | none => simp
    | some L => simp [List.any_eq_false, Bool.not_eq_true']

theorem pruneMovies_mem (servers : List WServer) (movies : List MediaItem)
    (m : MediaItem) :
    m ∈ (pruneMovies servers movies).1 ↔
      m ∈ movies ∧ ¬ ∃ sv ∈ servers, serverLacksMovie sv m := by
  unfold pruneMovies
  simp only [List.mem_filter, Bool.not_eq_true', List.any_eq_false]
  constructor
  · rintro ⟨hm, hall⟩
    refine ⟨hm, ?_⟩
    rintro ⟨sv, hsv, hl⟩
    exact hall sv hsv ((serverMissingMovie_iff sv m).mpr hl)
  · rintro ⟨hm, hno⟩
    refine ⟨hm, fun sv hsv => ?_⟩
    by_contra hne
    exact hno ⟨sv, hsv, (serverMissingMovie_iff sv m).mp hne⟩

theorem pruneMovies_tomb (servers : List WServer) (movies : List MediaItem)
    (m : MediaItem) :
    Tombstone.item m ∈ (pruneMovies servers movies).2 ↔
      m ∈ movies ∧ ∃ sv ∈ servers, serverLacksMovie sv m := by
  unfold pruneMovies
  simp only [List.mem_map, List.mem_filter, List.any_eq_true, Tombstone.item.injEq]
  constructor
  · rintro ⟨x, ⟨hx, sv, hsv, hm⟩, rfl⟩
    exact ⟨hx, sv, hsv, (serverMissingMovie_iff sv x).mp hm⟩
  · rintro ⟨hm, sv, hsv, hl⟩
    exact ⟨m, ⟨hm, sv, hsv, (serverMissingMovie_iff sv m).mpr hl⟩, rfl⟩


theorem effLib_of_snap {sv : WServer} {L : LibraryData}
    (h : sv.snap = some (some L)) : effLib sv = some L := by
  unfold effLib
  rw [h]

theorem pruneSeriesStep_none_of_lacks :
    ∀ (servers : List WServer) (ser : Series),
    (∃ sv ∈ servers, serverLacksSeries sv ser.identifiers) →
    (pruneSeriesStep ser servers).1 = none ∧
    ∃ s', Tombstone.series s' ∈ (pruneSeriesStep ser servers).2 ∧
      s'.identifiers = ser.identifiers
  | [], ser => by
    rintro ⟨sv, hsv, -⟩
    exact absurd hsv (List.not_mem_nil sv)
  | sv :: rest, ser => by
    rintro ⟨sv', hsv', hl⟩
    cases he : effLib sv with
    | none =>
      have hrest : sv' ∈ rest := by
        rcases List.mem_cons.mp hsv' with rfl | hmem
        · rcases hl with ⟨L, hsnap, -⟩
          rw [effLib_of_snap hsnap] at he
          cases he
        · exact hmem
      have := pruneSeriesStep_none_of_lacks rest ser ⟨sv', hrest, hl⟩
      simpa [pruneSeriesStep, he] using this
    | some L =>
      cases hf : L.series.find?
          (fun ss => check_same_identifiers ser.identifiers ss.identifiers) with
      | none =>
        refine ⟨by simp [pruneSeriesStep, he, hf], ⟨ser, ?_, rfl⟩⟩
        simp [pruneSeriesStep, he, hf]
      | some smatch =>
        by_cases hk : (ser.episodes.filter (fun e =>
            smatch.episodes.any
              (fun se => check_same_identifiers e.identifiers se.identifiers))).isEmpty
        · constructor
          · simp [pruneSeriesStep, he, hf, hk]
          · refine ⟨⟨ser.identifiers, ser.episodes.filter (fun e =>
              smatch.episodes.any
                (fun se => check_same_identifiers e.identifiers se.identifiers))⟩, ?_, rfl⟩
            simp [pruneSeriesStep, he, hf, hk]
        · have hrest : sv' ∈ rest := by
            rcases List.mem_cons.mp hsv' with rfl | hmem
            · rcases hl with ⟨L', hsnap, hnone⟩
              rw [effLib_of_snap hsnap] at he
              cases he
              have hm := List.mem_of_find?_eq_some hf
              have hp := List.find?_some hf
              rw [hnone smatch hm] at hp
              cases hp
            · exact hmem
          have := pruneSeriesStep_none_of_lacks rest
            ⟨ser.identifiers, ser.episodes.filter (fun e =>
              smatch.episodes.any
                (fun se => check_same_identifiers e.identifiers se.identifiers))⟩
            ⟨sv', hrest, hl⟩
          constructor
          · simpa [pruneSeriesStep, he, hf, hk] using this.1
          · rcases this.2 with ⟨s', hs', hid⟩
            refine ⟨s', ?_, hid⟩
            simp [pruneSeriesStep, he, hf, hk]
            exact hs'


theorem epOnAll_nil (ids : MediaIdentifiers) (e : MediaItem) :
    epOnAllServers [] ids e = true := rfl

theorem epOnAll_cons_none {sv : WServer} (he : effLib sv = none)
    (rest : List WServer) (ids : MediaIdentifiers) (e : MediaItem) :
    epOnAllServers (sv :: rest) ids e = epOnAllServers rest ids e := by
  simp [epOnAllServers, List.all_cons, he]

theorem epOnAll_cons_some {sv : WServer} {L : LibraryData} {smatch : Series}
    (he : effLib sv = some L) (ids : MediaIdentifiers)
    (hf : L.series.find? (fun ss => check_same_identifiers ids ss.identifiers) = some smatch)
    (rest : List WServer) (e : MediaItem) :
    epOnAllServers (sv :: rest) ids e =
      (smatch.episodes.any (fun se => check_same_identifiers e.identifiers se.identifiers) &&
       epOnAllServers rest ids e) := by
  simp [epOnAllServers, List.all_cons, he, hf]

theorem pruneSeriesStep_some_char :
    ∀ (servers : List WServer) (ser s' : Series),
    (∀ sv ∈ servers, ∀ L, effLib sv = some L →
      ∃ ss ∈ L.series, check_same_identifiers ser.identifiers ss.identifiers = true) →
    (pruneSeriesStep ser servers).1 = some s' →
    s'.identifiers = ser.identifiers ∧
    ∀ e, e ∈ s'.episodes ↔
      (e ∈ ser.episodes ∧ epOnAllServers servers ser.identifiers e = true)
  | [], ser, s' => by
    intro hall h
    simp only [pruneSeriesStep, Option.some.injEq] at h
    subst h
    simp [epOnAll_nil]
  | sv :: rest, ser, s' => by
    intro hall h
    cases he : effLib sv with
    | none =>
      simp only [pruneSeriesStep, he] at h
      have ih := pruneSeriesStep_some_char rest ser s'
        (fun u hu => hall u (List.mem_cons_of_mem sv hu)) h
      refine ⟨ih.1, fun e => ?_⟩
      rw [ih.2 e, epOnAll_cons_none he]
    | some L =>
      obtain ⟨ss, hss, hcheck⟩ := hall sv (List.mem_cons_self sv rest) L he
      cases hf : L.series.find?
          (fun x => check_same_identifiers ser.identifiers x.identifiers) with
      | none =>
        rw [List.find?_eq_none] at hf
        exact absurd hcheck (by simpa using hf ss hss)
      | some smatch =>
        by_cases hk : (ser.episodes.filter (fun e =>
            smatch.episodes.any
              (fun se => check_same_identifiers e.identifiers se.identifiers))).isEmpty
        · simp [pruneSeriesStep, he, hf, hk] at h
        · simp only [pruneSeriesStep, he, hf, hk, if_false, Bool.false_eq_true] at h
          have ih := pruneSeriesStep_some_char rest
            ⟨ser.identifiers, ser.episodes.filter (fun e =>
              smatch.episodes.any
                (fun se => check_same_identifiers e.identifiers se.identifiers))⟩ s'
            (fun u hu => hall u (List.mem_cons_of_mem sv hu)) h
          refine ⟨ih.1, fun e => ?_⟩
          rw [ih.2 e]
          rw [epOnAll_cons_some he ser.identifiers hf rest]
          simp only [List.mem_filter, Bool.and_eq_true]
          tauto


theorem epOnAll_no_qual :
    ∀ (servers : List WServer), (∀ sv ∈ servers, effLib sv = none) →
    ∀ (ids : MediaIdentifiers) (e : MediaItem), epOnAllServers servers ids e = true
  | [], _, _, _ => rfl
  | sv :: rest, h, ids, e => by
    rw [epOnAll_cons_none (h sv (List.mem_cons_self sv rest))]
    exact epOnAll_no_qual rest (fun u hu => h u (List.mem_cons_of_mem sv hu)) ids e

theorem pruneSeriesStep_none_imp :
    ∀ (servers : List WServer) (ser : Series),
    (∀ sv ∈ servers, ∀ L, effLib sv = some L →
      ∃ ss ∈ L.series, check_same_identifiers ser.identifiers ss.identifiers = true) →
    (pruneSeriesStep ser servers).1 = none →
    ser.episodes.filter (fun e => epOnAllServers servers ser.identifiers e) = []
  | [], ser => by
    intro hall h
    simp [pruneSeriesStep] at h
  | sv :: rest, ser => by
    intro hall h
    cases he : effLib sv with
    | none =>
      simp only [pruneSeriesStep, he] at h
      have ih := pruneSeriesStep_none_imp rest ser
        (fun u hu => hall u (List.mem_cons_of_mem sv hu)) h
      rw [List.filter_congr (fun e _ => epOnAll_cons_none he rest ser.identifiers e)]
      exact ih
    | some L =>
      obtain ⟨ss, hss, hcheck⟩ := hall sv (List.mem_cons_self sv rest) L he
      cases hf : L.series.find?
          (fun x => check_same_identifiers ser.identifiers x.identifiers) with
      | none =>
        rw [List.find?_eq_none] at hf
        exact absurd hcheck (by simpa using hf ss hss)
      | some smatch =>
        rw [List.filter_congr (fun e _ => epOnAll_cons_some he ser.identifiers hf rest e)]
        rw [← List.filter_filter]
        by_cases hk : (ser.episodes.filter (fun e =>
            smatch.episodes.any
              (fun se => check_same_identifiers e.identifiers se.identifiers))).isEmpty
        · rw [List.isEmpty_iff] at hk
          rw [List.filter_comm, hk]
          rfl
        · simp only [pruneSeriesStep, he, hf, hk, if_false, Bool.false_eq_true] at h
          rw [List.filter_comm]
          exact pruneSeriesStep_none_imp rest
            ⟨ser.identifiers, ser.episodes.filter (fun e =>
              smatch.episodes.any
                (fun se => check_same_identifiers e.identifiers se.identifiers))⟩
            (fun u hu => hall u (List.mem_cons_of_mem sv hu)) h


theorem pruneSeriesStep_none_of_filter :
    ∀ (servers : List WServer) (ser : Series),
    (∀ sv ∈ servers, ∀ L, effLib sv = some L →
      ∃ ss ∈ L.series, check_same_identifiers ser.identifiers ss.identifiers = true) →
    (∃ sv ∈ servers, ∃ L, effLib sv = some L) →
    ser.episodes.filter (fun e => epOnAllServers servers ser.identifiers e) = [] →
    (pruneSeriesStep ser servers).1 = none
  | [], ser => by
    rintro _ ⟨sv, hsv, -⟩ _
    exact absurd hsv (List.not_mem_nil sv)
  | sv :: rest, ser => by
    rintro hall ⟨svq, hsvq, Lq, hLq⟩ hfil
    cases he : effLib sv with
    | none =>
      have hq : ∃ u ∈ rest, ∃ L, effLib u = some L := by
        rcases List.mem_cons.mp hsvq with rfl | hmem
        · rw [hLq] at he
          cases he
        · exact ⟨svq, hmem, Lq, hLq⟩
      rw [List.filter_congr (fun e _ => epOnAll_cons_none he rest ser.identifiers e)] at hfil
      have ih := pruneSeriesStep_none_of_filter rest ser
        (fun u hu => hall u (List.mem_cons_of_mem sv hu)) hq hfil
      simpa [pruneSeriesStep, he] using ih
    | some L =>
      obtain ⟨ss, hss, hcheck⟩ := hall sv (List.mem_cons_self sv rest) L he
      cases hf : L.series.find?
          (fun x => check_same_identifiers ser.identifiers x.identifiers) with
      | none =>
        rw [List.find?_eq_none] at hf
        exact absurd hcheck (by simpa using hf ss hss)
      | some smatch =>
        by_cases hk : (ser.episodes.filter (fun e =>
            smatch.episodes.any
              (fun se => check_same_identifiers e.identifiers se.identifiers))).isEmpty
        · simp [pruneSeriesStep, he, hf, hk]
        · simp only [pruneSeriesStep, he, hf, hk, if_false, Bool.false_eq_true]
          rw [List.filter_congr (fun e _ => epOnAll_cons_some he ser.identifiers hf rest e),
            ← List.filter_filter, List.filter_comm] at hfil
          by_cases hq : ∃ u ∈ rest, ∃ L, effLib u = some L
          · exact pruneSeriesStep_none_of_filter rest
              ⟨ser.identifiers, ser.episodes.filter (fun e =>
                smatch.episodes.any
                  (fun se => check_same_identifiers e.identifiers se.identifiers))⟩
              (fun u hu => hall u (List.mem_cons_of_mem sv hu)) hq hfil
          · exfalso
            have hnone : ∀ u ∈ rest, effLib u = none := by
              intro u hu
              cases heu : effLib u with
              | none => rfl
              | some Lu => exact absurd ⟨u, hu, Lu, heu⟩ hq
            rw [List.filter_congr
              (fun e _ => epOnAll_no_qual rest hnone ser.identifiers e)] at hfil
            rw [List.filter_true] at hfil
            rw [List.isEmpty_iff] at hk
            exact hk hfil


theorem serverMissingMovie_none {sv : WServer} (h : sv.snap = none)
    (m : MediaItem) : serverMissingMovie sv m = false := by
  unfold serverMissingMovie
  rw [h]

theorem effLib_none {sv : WServer} (h : sv.snap = none) : effLib sv = none := by
  unfold effLib
  rw [h]

theorem pruneSeriesStep_skip {sv : WServer} (hsv : sv.snap = none) :
    ∀ (pre post : List WServer) (ser : Series),
    pruneSeriesStep ser (pre ++ sv :: post) = pruneSeriesStep ser (pre ++ post)
  | [], post, ser => by
    simp [pruneSeriesStep, effLib_none hsv]
  | u :: pre, post, ser => by
    cases hu : effLib u with
    | none =>
      simpa [pruneSeriesStep, hu] using pruneSeriesStep_skip hsv pre post ser
    | some L =>
      cases hf : L.series.find?
          (fun x => check_same_identifiers ser.identifiers x.identifiers) with
      | none => simp [pruneSeriesStep, hu, hf]
      | some smatch =>
        by_cases hk : (ser.episodes.filter (fun e =>
            smatch.episodes.any
              (fun se => check_same_identifiers e.identifiers se.identifiers))).isEmpty
        · simp [pruneSeriesStep, hu, hf, hk]
        · simp only [pruneSeriesStep, List.cons_append, hu, hf, hk, if_false,
            Bool.false_eq_true, List.append_eq]
          rw [pruneSeriesStep_skip hsv pre post]

theorem pruneLibrary_skip {sv : WServer} (hsv : sv.snap = none)
    (pre post : List WServer) (lib : LibraryData) :
    pruneLibrary (pre ++ sv :: post) lib = pruneLibrary (pre ++ post) lib := by
  have hany : ∀ m : MediaItem,
      (pre ++ sv :: post).any (fun s => serverMissingMovie s m) =
        (pre ++ post).any (fun s => serverMissingMovie s m) := by
    intro m
    simp [List.any_append, List.any_cons, serverMissingMovie_none hsv]
  unfold pruneLibrary pruneMovies
  simp only [hany, pruneSeriesStep_skip hsv pre post]


/-- C3: a global movie survives the prune stage iff no server that is
present this cycle and carries the user and library lacks a matching movie,
and it is tombstoned iff such a server exists; a series is removed, leaving
a Series tombstone with its identifiers, whenever some qualifying server has
no matching series; when every qualifying server has a matching series, a
surviving series keeps exactly the episodes present on all qualifying
servers, and (when at least one qualifying server exists) the series is
removed iff that episode set is empty; finally a server whose fetch failed
is inert: deleting it from the server list does not change the prune
stage output, so it never causes any pruning. -/
theorem claim_C3 :
    (∀ (servers : List WServer) (movies : List MediaItem) (m : MediaItem),
      m ∈ (pruneMovies servers movies).1 ↔
        m ∈ movies ∧ ¬ ∃ sv ∈ servers, serverLacksMovie sv m) ∧
    (∀ (servers : List WServer) (movies : List MediaItem) (m : MediaItem),
      Tombstone.item m ∈ (pruneMovies servers movies).2 ↔
        m ∈ movies ∧ ∃ sv ∈ servers, serverLacksMovie sv m) ∧
    (∀ (servers : List WServer) (ser : Series),
      (∃ sv ∈ servers, serverLacksSeries sv ser.identifiers) →
      (pruneSeriesStep ser servers).1 = none ∧
      ∃ s', Tombstone.series s' ∈ (pruneSeriesStep ser servers).2 ∧
        s'.identifiers = ser.identifiers) ∧
    (∀ (servers : List WServer) (ser s' : Series),
      (∀ sv ∈ servers, ∀ L, effLib sv = some L →
        ∃ ss ∈ L.series, check_same_identifiers ser.identifiers ss.identifiers = true) →
      (pruneSeriesStep ser servers).1 = some s' →
      s'.identifiers = ser.identifiers ∧
      ∀ e, e ∈ s'.episodes ↔
        (e ∈ ser.episodes ∧ epOnAllServers servers ser.identifiers e = true)) ∧
    (∀ (servers : List WServer) (ser : Series),
      (∀ sv ∈ servers, ∀ L, effLib sv = some L →
        ∃ ss ∈ L.series, check_same_identifiers ser.identifiers ss.identifiers = true) →
      (∃ sv ∈ servers, ∃ L, effLib sv = some L) →
      ((pruneSeriesStep ser servers).1 = none ↔
        ser.episodes.filter (fun e => epOnAllServers servers ser.identifiers e) = [])) ∧
    (∀ (sv : WServer), sv.snap = none →
      ∀ (pre post : List WServer) (lib : LibraryData),
        pruneLibrary (pre ++ sv :: post) lib = pruneLibrary (pre ++ post) lib) :=
  ⟨pruneMovies_mem, pruneMovies_tomb,
   fun servers ser h => pruneSeriesStep_none_of_lacks servers ser h,
   fun servers ser s' hall h => pruneSeriesStep_some_char servers ser s' hall h,
   fun servers ser hall hq =>
     ⟨fun h => pruneSeriesStep_none_imp servers ser hall h,
      fun h => pruneSeriesStep_none_of_filter servers ser hall hq h⟩,
   fun _ h pre post lib => pruneLibrary_skip h pre post lib⟩

theorem claim_C3_witness :
    ((pruneSeriesStep serS [svD]).1 = none ∧
      ∃ s', Tombstone.series s' ∈ (pruneSeriesStep serS [svD]).2 ∧
        s'.identifiers = serS.identifiers) ∧
    (Series.identifiers ⟨serS.identifiers, [epE]⟩ = serS.identifiers ∧
      ∀ e, e ∈ ([epE] : List MediaItem) ↔
        (e ∈ serS.episodes ∧ epOnAllServers [svC] serS.identifiers e = true)) ∧
    ((pruneSeriesStep serS [svC]).1 = none ↔
      serS.episodes.filter (fun e => epOnAllServers [svC] serS.identifiers e) = []) ∧
    pruneLibrary ([svE] ++ [svC]) c3lib = pruneLibrary [svC] c3lib := by
  have hall : ∀ sv ∈ [svC], ∀ L, effLib sv = some L →
      ∃ ss ∈ L.series, check_same_identifiers serS.identifiers ss.identifiers = true := by
    intro sv hsv L hL
    rw [List.mem_singleton] at hsv
    subst hsv
    have hLC : L = libC := by
      have : effLib svC = some libC := rfl
      rw [this] at hL
      exact (Option.some.injEq _ _ ▸ hL).symm
    subst hLC
    exact ⟨serCcopy, List.mem_singleton.mpr rfl, by decide⟩
  refine ⟨claim_C3.2.2.1 [svD] serS
      ⟨svD, List.mem_singleton.mpr rfl,
        ⟨libD, rfl, fun ss hss => absurd hss (List.not_mem_nil ss)⟩⟩,
    claim_C3.2.2.2.1 [svC] serS ⟨serS.identifiers, [epE]⟩ hall (by decide),
    claim_C3.2.2.2.2.1 [svC] serS hall ⟨svC, List.mem_singleton.mpr rfl, libC, rfl⟩,
    claim_C3.2.2.2.2.2 svE rfl [] [svC] c3lib⟩


theorem mergeMovies_skip (tombs : List Tombstone) (g : List MediaItem)
    (pre post : List MediaItem) (mov : MediaItem)
    (h : movieTombMatch tombs mov = true) :
    mergeMovies tombs g (pre ++ mov :: post) = mergeMovies tombs g (pre ++ post) := by
  unfold mergeMovies
  rw [List.foldl_append, List.foldl_append, List.foldl_cons, h]
  simp

theorem mergeSeries_skip (tombs : List Tombstone) (g : List Series)
    (pre post : List Series) (ser : Series)
    (h : seriesTombMatch tombs ser.identifiers = true) :
    mergeSeries tombs g (pre ++ ser :: post) = mergeSeries tombs g (pre ++ post) := by
  unfold mergeSeries
  rw [List.foldl_append, List.foldl_append, List.foldl_cons, h]
  simp

theorem pruneSeriesStep_tomb_of_none :
    ∀ (servers : List WServer) (ser : Series),
    (pruneSeriesStep ser servers).1 = none →
    ∃ s', Tombstone.series s' ∈ (pruneSeriesStep ser servers).2 ∧
      s'.identifiers = ser.identifiers
  | [], ser => by
    intro h
    simp [pruneSeriesStep] at h
  | sv :: rest, ser => by
    intro h
    cases he : effLib sv with
    | none =>
      simp only [pruneSeriesStep, he] at h ⊢
      exact pruneSeriesStep_tomb_of_none rest ser h
    | some L =>
      cases hf : L.series.find?
          (fun x => check_same_identifiers ser.identifiers x.identifiers) with
      | none =>
        refine ⟨ser, ?_, rfl⟩
        simp [pruneSeriesStep, he, hf]
      | some smatch =>
        by_cases hk : (ser.episodes.filter (fun e =>
            smatch.episodes.any
              (fun se => check_same_identifiers e.identifiers se.identifiers))).isEmpty
        · refine ⟨⟨ser.identifiers, ser.episodes.filter (fun e =>
            smatch.episodes.any
              (fun se => check_same_identifiers e.identifiers se.identifiers))⟩, ?_, rfl⟩
          simp [pruneSeriesStep, he, hf, hk]
        · simp only [pruneSeriesStep, he, hf, hk, if_false, Bool.false_eq_true] at h ⊢
          obtain ⟨s', hs', hid⟩ := pruneSeriesStep_tomb_of_none rest
            ⟨ser.identifiers, ser.episodes.filter (fun e =>
              smatch.episodes.any
                (fun se => check_same_identifiers e.identifiers se.identifiers))⟩ h
          refine ⟨s', ?_, hid⟩
          simp
          exact hs'

theorem merge_subset :
    ∀ (L : List MediaItem) (s x : MediaItem),
    x ∈ (merge_media_item_to_list L s).1 → x ∈ L ∨ x = s
  | [], s, x => by
    intro h
    simp [merge_media_item_to_list] at h
    exact Or.inr h
  | t :: rest, s, x => by
    intro h
    by_cases hc : check_same_identifiers t.identifiers s.identifiers = true
    · by_cases hr : resolveConflict t s = true
      · simp [merge_media_item_to_list, hc, hr] at h
        rcases h with rfl | hmem
        · exact Or.inr rfl
        · exact Or.inl (List.mem_cons_of_mem t hmem)
      · simp [merge_media_item_to_list, hc, hr] at h
        rcases h with rfl | hmem
        · exact Or.inl (List.mem_cons_self x rest)
        · exact Or.inl (List.mem_cons_of_mem t hmem)
    · rw [Bool.not_eq_true] at hc
      simp only [merge_media_item_to_list, hc, Bool.false_eq_true, if_false,
        List.mem_cons] at h
      rcases h with rfl | hmem
      · exact Or.inl (List.mem_cons_self x rest)
      · rcases merge_subset rest s x hmem with hmem2 | rfl
        · exact Or.inl (List.mem_cons_of_mem t hmem2)
        · exact Or.inr rfl

theorem mergeMovies_no_tomb_item :
    ∀ (tombs : List Tombstone) (incoming g : List MediaItem) (m : MediaItem),
    Tombstone.item m ∈ tombs →
    check_same_identifiers m.identifiers m.identifiers = true →
    m ∉ g → m ∉ mergeMovies tombs g incoming
  | tombs, [], g, m => by
    intro _ _ hg
    exact hg
  | tombs, mov :: rest, g, m => by
    intro ht hself hg
    by_cases htm : movieTombMatch tombs mov = true
    · simpa [mergeMovies, List.foldl_cons, htm] using
        mergeMovies_no_tomb_item tombs rest g m ht hself hg
    · have hmovne : m ∉ (merge_media_item_to_list g mov).1 := by
        intro hmem
        rcases merge_subset g mov m hmem with h | rfl
        · exact hg h
        · apply htm
          unfold movieTombMatch
          rw [List.any_eq_true]
          exact ⟨Tombstone.item m, ht, hself⟩
      rw [Bool.not_eq_true] at htm
      simpa [mergeMovies, List.foldl_cons, htm] using
        mergeMovies_no_tomb_item tombs rest (merge_media_item_to_list g mov).1 m
          ht hself hmovne

theorem mergeSeriesOne_ids :
    ∀ (tombs : List Tombstone) (gseries : List Series) (ser s' : Series),
    s' ∈ mergeSeriesOne tombs gseries ser →
    (∃ g ∈ gseries, s'.identifiers = g.identifiers) ∨ s'.identifiers = ser.identifiers
  | tombs, [], ser, s' => by
    intro h
    simp [mergeSeriesOne] at h
    subst h
    exact Or.inr rfl
  | tombs, g :: rest, ser, s' => by
    intro h
    by_cases hc : check_same_identifiers g.identifiers ser.identifiers = true
    · simp only [mergeSeriesOne, hc, if_true, List.mem_cons] at h
      rcases h with rfl | hmem
      · exact Or.inl ⟨g, List.mem_cons_self g rest, rfl⟩
      · exact Or.inl ⟨s', List.mem_cons_of_mem g hmem, rfl⟩
    · rw [Bool.not_eq_true] at hc
      simp only [mergeSeriesOne, hc, Bool.false_eq_true, if_false, List.mem_cons] at h
      rcases h with rfl | hmem
      · exact Or.inl ⟨s', List.mem_cons_self s' rest, rfl⟩
      · rcases mergeSeriesOne_ids tombs rest ser s' hmem with ⟨g2, hg2, hid⟩ | hid
        · exact Or.inl ⟨g2, List.mem_cons_of_mem g hg2, hid⟩
        · exact Or.inr hid

theorem mergeSeries_no_tomb :
    ∀ (tombs : List Tombstone) (incoming g : List Series) (ts : Series),
    Tombstone.series ts ∈ tombs →
    (∀ gs ∈ g, check_same_identifiers gs.identifiers ts.identifiers = false) →
    ∀ gs' ∈ mergeSeries tombs g incoming,
      check_same_identifiers gs'.identifiers ts.identifiers = false
  | tombs, [], g, ts => by
    intro _ hg gs hgs
    exact hg gs hgs
  | tombs, ser :: rest, g, ts => by
    intro ht hg gs hgs
    by_cases htm : seriesTombMatch tombs ser.identifiers = true
    · rw [mergeSeries, List.foldl_cons, if_pos htm] at hgs
      exact mergeSeries_no_tomb tombs rest g ts ht hg gs hgs
    · have hsafe : check_same_identifiers ser.identifiers ts.identifiers = false := by
        by_contra hne
        rw [Bool.not_eq_false] at hne
        apply htm
        unfold seriesTombMatch
        rw [List.any_eq_true]
        exact ⟨Tombstone.series ts, ht, hne⟩
      have hg2 : ∀ gs2 ∈ mergeSeriesOne tombs g ser,
          check_same_identifiers gs2.identifiers ts.identifiers = false := by
        intro gs2 hgs2
        rcases mergeSeriesOne_ids tombs g ser gs2 hgs2 with ⟨g2, hg2m, hid⟩ | hid
        · rw [hid]
          exact hg g2 hg2m
        · rw [hid]
          exact hsafe
      rw [mergeSeries, List.foldl_cons, if_neg htm] at hgs
      exact mergeSeries_no_tomb tombs rest (mergeSeriesOne tombs g ser) ts ht hg2 gs hgs


/-- C4: the merge stage skips every incoming movie or episode matching a
MediaItem-kind tombstone and every incoming series matching a Series-kind
tombstone (deleting it from the incoming list changes nothing); whenever the
prune stage removes a whole series it appends a Series-kind tombstone
carrying the series identifiers; consequently a pruned (self-matching) item
absent from the post-prune state never reappears after the merge stage, and
no series matching a Series tombstone ever appears in the merged series
list, however many lagging servers still report them. -/
theorem claim_C4 :
    (∀ (tombs : List Tombstone) (g pre post : List MediaItem) (mov : MediaItem),
      movieTombMatch tombs mov = true →
      mergeMovies tombs g (pre ++ mov :: post) = mergeMovies tombs g (pre ++ post)) ∧
    (∀ (tombs : List Tombstone) (g pre post : List Series) (ser : Series),
      seriesTombMatch tombs ser.identifiers = true →
      mergeSeries tombs g (pre ++ ser :: post) = mergeSeries tombs g (pre ++ post)) ∧
    (∀ (servers : List WServer) (ser : Series),
      (pruneSeriesStep ser servers).1 = none →
      ∃ s', Tombstone.series s' ∈ (pruneSeriesStep ser servers).2 ∧
        s'.identifiers = ser.identifiers) ∧
    (∀ (tombs : List Tombstone) (incoming g : List MediaItem) (m : MediaItem),
      Tombstone.item m ∈ tombs →
      check_same_identifiers m.identifiers m.identifiers = true →
      m ∉ g → m ∉ mergeMovies tombs g incoming) ∧
    (∀ (tombs : List Tombstone) (incoming g : List Series) (ts : Series),
      Tombstone.series ts ∈ tombs →
      (∀ gs ∈ g, check_same_identifiers gs.identifiers ts.identifiers = false) →
      ∀ gs' ∈ mergeSeries tombs g incoming,
        check_same_identifiers gs'.identifiers ts.identifiers = false) :=
  ⟨fun tombs g pre post mov h => mergeMovies_skip tombs g pre post mov h,
   fun tombs g pre post ser h => mergeSeries_skip tombs g pre post ser h,
   fun servers ser h => pruneSeriesStep_tomb_of_none servers ser h,
   fun tombs incoming g m h1 h2 h3 => mergeMovies_no_tomb_item tombs incoming g m h1 h2 h3,
   fun tombs incoming g ts h1 h2 => mergeSeries_no_tomb tombs incoming g ts h1 h2⟩

theorem claim_C4_witness :
    mergeMovies c4tombs [] ([] ++ movM :: []) = mergeMovies c4tombs [] ([] ++ []) ∧
    mergeSeries c4tombs [] ([] ++ serS :: []) = mergeSeries c4tombs [] ([] ++ []) ∧
    (∃ s', Tombstone.series s' ∈ (pruneSeriesStep serS [svD]).2 ∧
      s'.identifiers = serS.identifiers) ∧
    movM ∉ mergeMovies c4tombs [] [movM] ∧
    (∀ gs' ∈ mergeSeries c4tombs [] [serS],
      check_same_identifiers gs'.identifiers serS.identifiers = false) :=
  ⟨claim_C4.1 c4tombs [] [] [] movM (by decide),
   claim_C4.2.1 c4tombs [] [] [] serS (by decide),
   claim_C4.2.2.1 [svD] serS (by decide),
   claim_C4.2.2.2.1 c4tombs [movM] [] movM (by decide) (by decide) (by simp),
   claim_C4.2.2.2.2 c4tombs [serS] [] serS (by decide)
     (fun gs hgs => absurd hgs (List.not_mem_nil gs))⟩

/-- C7 counterexample: with the global state produced by a successful first
cycle (two reachable servers, server A holding a watched movie that B lacks)
and the SAME snapshots fed to a second cycle, the second cycle's payloads
are not all empty: the movie pushed to B in cycle one is pruned (B still
does not report it) and an unmark payload is issued, so running on identical
snapshots is not idempotent. -/
theorem claim_C7_counterexample :
    c7afterCycle1.movies.length = 1 ∧
    c7secondPayloads.any (fun e => e.2.1.isSome || e.2.2.isSome) = true := by
  constructor
  · decide
  · decide

theorem resolveConflict_self (x : MediaItem) : resolveConflict x x = false := by
  unfold resolveConflict
  cases h : hasRecentChange x <;> simp [h]

theorem statusAgree_self (st : WatchedStatus) : statusAgree st st = true := by
  unfold statusAgree
  cases h : st.completed <;> simp [h]

theorem stampEntry_identifiers (ts : Int) (sid : String) (m : MediaItem) :
    (stampEntry ts sid m).identifiers = m.identifiers := rfl

theorem stampEntry_status (ts : Int) (sid : String) (m : MediaItem) :
    (stampEntry ts sid m).status = m.status := rfl

theorem dictGet_dictSet_self {α : Type} (d : List (String × α)) (k : String) (v : α) :
    dictGet (dictSet d k v) k = some v := by
  induction d with
  | nil => simp [dictGet, dictSet]
  | cons e rest ih =>
    by_cases h : e.1 = k
    · simp [dictGet, dictSet, h]
    · simp [dictGet, dictSet, h, ih]

theorem dictGet_dictSet_ne {α : Type} (d : List (String × α)) (k k' : String)
    (v : α) (h : k' ≠ k) : dictGet (dictSet d k v) k' = dictGet d k' := by
  induction d with
  | nil =>
    have hne : ¬ k = k' := fun hx => h hx.symm
    simp [dictGet, dictSet, hne]
  | cons e rest ih =>
    by_cases he : e.1 = k
    · subst he
      have hne : ¬ e.1 = k' := fun hx => h hx.symm
      simp [dictGet, dictSet, hne]
    · by_cases he2 : e.1 = k'
      · simp [dictGet, dictSet, he, he2, h]
      · simp [dictGet, dictSet, he, he2, ih]

theorem find?_first {α : Type} (p : α → Bool) :
    ∀ (pre : List α) (x : α) (post : List α),
    (∀ u ∈ pre, p u = false) → p x = true →
    (pre ++ x :: post).find? p = some x
  | [], x, post => by
    intro _ hx
    simp [List.find?_cons, hx]
  | u :: pre, x, post => by
    intro hpre hx
    have hu := hpre u (List.mem_cons_self u pre)
    simp only [List.cons_append, List.find?_cons, hu]
    exact find?_first p pre x post (fun v hv => hpre v (List.mem_cons_of_mem u hv)) hx

theorem pairwise_decomp {α : Type} {rel : α → α → Prop} :
    ∀ (l : List α) (m : α), l.Pairwise rel → m ∈ l →
    ∃ pre post, l = pre ++ m :: post ∧ ∀ u ∈ pre, rel u m := by
  intro l m hp hm
  obtain ⟨pre, post, rfl⟩ := List.append_of_mem hm
  rw [List.pairwise_append] at hp
  exact ⟨pre, post, rfl, fun u hu => hp.2.2 u hu m (List.mem_cons_self m post)⟩

theorem merge_scan_keep :
    ∀ (pre : List MediaItem) (t : MediaItem) (post : List MediaItem) (s : MediaItem),
    (∀ u ∈ pre, check_same_identifiers u.identifiers s.identifiers = false) →
    check_same_identifiers t.identifiers s.identifiers = true →
    resolveConflict t s = false →
    merge_media_item_to_list (pre ++ t :: post) s = (pre ++ t :: post, false)
  | [], t, post, s => by
    intro _ ht hr
    simp [merge_media_item_to_list, ht, hr]
  | u :: pre, t, post, s => by
    intro hpre ht hr
    have hu := hpre u (List.mem_cons_self u pre)
    simp only [List.cons_append, merge_media_item_to_list, hu, Bool.false_eq_true,
      if_false, List.append_eq]
    rw [merge_scan_keep pre t post s
      (fun v hv => hpre v (List.mem_cons_of_mem u hv)) ht hr]

theorem markMovieOne_scan (ts : Int) (sid : String) :
    ∀ (pre : List MediaItem) (g : MediaItem) (post : List MediaItem) (smov : MediaItem),
    (∀ u ∈ pre, check_same_identifiers smov.identifiers u.identifiers = false) →
    check_same_identifiers smov.identifiers g.identifiers = true →
    statusAgree smov.status g.status = true →
    markMovieOne ts sid smov (pre ++ g :: post) = pre ++ stampEntry ts sid g :: post
  | [], g, post, smov => by
    intro _ hg ha
    simp [markMovieOne, hg, ha]
  | u :: pre, g, post, smov => by
    intro hpre hg ha
    have hu := hpre u (List.mem_cons_self u pre)
    simp only [List.cons_append, markMovieOne, hu, Bool.false_eq_true, if_false, List.append_eq]
    rw [markMovieOne_scan ts sid pre g post smov
      (fun v hv => hpre v (List.mem_cons_of_mem u hv)) hg ha]

theorem mergeSeriesOne_scan (tombs : List Tombstone) :
    ∀ (pre : List Series) (g : Series) (post : List Series) (ser : Series),
    (∀ u ∈ pre, check_same_identifiers u.identifiers ser.identifiers = false) →
    check_same_identifiers g.identifiers ser.identifiers = true →
    mergeSeriesOne tombs (pre ++ g :: post) ser =
      pre ++ ⟨g.identifiers, mergeMovies tombs g.episodes ser.episodes⟩ :: post
  | [], g, post, ser => by
    intro _ hg
    simp [mergeSeriesOne, hg]
  | u :: pre, g, post, ser => by
    intro hpre hg
    have hu := hpre u (List.mem_cons_self u pre)
    simp only [List.cons_append, mergeSeriesOne, hu, Bool.false_eq_true, if_false, List.append_eq]
    rw [mergeSeriesOne_scan tombs pre g post ser
      (fun v hv => hpre v (List.mem_cons_of_mem u hv)) hg]

theorem markSeriesOne_scan (ts : Int) (sid : String) :
    ∀ (pre : List Series) (g : Series) (post : List Series) (sser : Series),
    (∀ u ∈ pre, check_same_identifiers sser.identifiers u.identifiers = false) →
    check_same_identifiers sser.identifiers g.identifiers = true →
    markSeriesOne ts sid sser (pre ++ g :: post) =
      pre ++ ⟨g.identifiers, markMovies ts sid g.episodes sser.episodes⟩ :: post
  | [], g, post, sser => by
    intro _ hg
    simp [markSeriesOne, hg]
  | u :: pre, g, post, sser => by
    intro hpre hg
    have hu := hpre u (List.mem_cons_self u pre)
    simp only [List.cons_append, markSeriesOne, hu, Bool.false_eq_true, if_false, List.append_eq]
    rw [markSeriesOne_scan ts sid pre g post sser
      (fun v hv => hpre v (List.mem_cons_of_mem u hv)) hg]


theorem mergeMovies_fold_id (gl : List MediaItem) :
    ∀ (inc : List MediaItem),
    (∀ mv ∈ inc, merge_media_item_to_list gl mv = (gl, false)) →
    mergeMovies [] gl inc = gl
  | [] => by
    intro _
    rfl
  | mv :: rest => by
    intro h
    have hstep := h mv (List.mem_cons_self mv rest)
    have : movieTombMatch [] mv = false := rfl
    simp only [mergeMovies, List.foldl_cons, this, Bool.false_eq_true, if_false, hstep]
    exact mergeMovies_fold_id gl rest (fun v hv => h v (List.mem_cons_of_mem mv hv))

theorem merge_into_self (movies : List MediaItem) (m : MediaItem)
    (hp : movies.Pairwise (fun a b => bothNoMatch a.identifiers b.identifiers))
    (hself : check_same_identifiers m.identifiers m.identifiers = true)
    (hm : m ∈ movies) :
    merge_media_item_to_list movies m = (movies, false) := by
  obtain ⟨pre, post, rfl, hpre⟩ := pairwise_decomp movies m hp hm
  exact merge_scan_keep pre m post m (fun u hu => (hpre u hu).1) hself
    (resolveConflict_self m)

theorem mergeMovies_self (movies : List MediaItem)
    (hp : movies.Pairwise (fun a b => bothNoMatch a.identifiers b.identifiers))
    (hself : ∀ x ∈ movies, check_same_identifiers x.identifiers x.identifiers = true) :
    mergeMovies [] movies movies = movies :=
  mergeMovies_fold_id movies movies
    (fun mv hmv => merge_into_self movies mv hp (hself mv hmv) hmv)

theorem mergeSeriesOne_self (series : List Series) (ser : Series)
    (hp : series.Pairwise (fun a b => bothNoMatch a.identifiers b.identifiers))
    (hself : check_same_identifiers ser.identifiers ser.identifiers = true)
    (heps : mergeMovies [] ser.episodes ser.episodes = ser.episodes)
    (hm : ser ∈ series) :
    mergeSeriesOne [] series ser = series := by
  obtain ⟨pre, post, rfl, hpre⟩ := pairwise_decomp series ser hp hm
  rw [mergeSeriesOne_scan [] pre ser post ser (fun u hu => (hpre u hu).1) hself, heps]

theorem mergeSeries_fold_id (gl : List Series) :
    ∀ (inc : List Series),
    (∀ sr ∈ inc, mergeSeriesOne [] gl sr = gl) →
    mergeSeries [] gl inc = gl
  | [] => by
    intro _
    rfl
  | sr :: rest => by
    intro h
    have hstep := h sr (List.mem_cons_self sr rest)
    have ht : seriesTombMatch [] sr.identifiers = false := rfl
    simp only [mergeSeries, List.foldl_cons, ht, Bool.false_eq_true, if_false, hstep]
    exact mergeSeries_fold_id gl rest (fun v hv => h v (List.mem_cons_of_mem sr hv))

theorem mergeSeries_self (series : List Series)
    (hp : series.Pairwise (fun a b => bothNoMatch a.identifiers b.identifiers))
    (hself : ∀ s ∈ series, check_same_identifiers s.identifiers s.identifiers = true)
    (hepsP : ∀ s ∈ series,
      s.episodes.Pairwise (fun a b => bothNoMatch a.identifiers b.identifiers))
    (hepsS : ∀ s ∈ series, ∀ e ∈ s.episodes,
      check_same_identifiers e.identifiers e.identifiers = true) :
    mergeSeries [] series series = series :=
  mergeSeries_fold_id series series
    (fun sr hsr => mergeSeriesOne_self series sr hp (hself sr hsr)
      (mergeMovies_self sr.episodes (hepsP sr hsr) (hepsS sr hsr)) hsr)

theorem mergeStage_id :
    ∀ (servers : List WServer) (G : LibraryData),
    (∀ sv ∈ servers, ∀ L, effLib sv = some L → L = G) →
    mergeMovies [] G.movies G.movies = G.movies →
    mergeSeries [] G.series G.series = G.series →
    mergeStage [] G servers = G
  | [], G => by
    intro _ _ _
    rfl
  | sv :: rest, G => by
    intro h1 hm hs
    cases he : effLib sv with
    | none =>
      simp only [mergeStage, List.foldl_cons, he]
      exact mergeStage_id rest G (fun u hu => h1 u (List.mem_cons_of_mem sv hu)) hm hs
    | some L =>
      have hL : L = G := h1 sv (List.mem_cons_self sv rest) L he
      subst hL
      simp only [mergeStage, List.foldl_cons, he, mergeLibrary, hm, hs]
      exact mergeStage_id rest L (fun u hu => h1 u (List.mem_cons_of_mem sv hu)) hm hs



theorem filterMap_some_id {α : Type} (l : List α) : l.filterMap some = l := by
  simp

theorem flatten_map_nil {α β : Type} :
    ∀ l : List α, (l.map (fun _ => ([] : List β))).flatten = []
  | [] => rfl
  | a :: t => by simp [flatten_map_nil t]

theorem pruneMovies_id (servers : List WServer) (movies : List MediaItem)
    (h : ∀ m ∈ movies, ∀ sv ∈ servers, serverMissingMovie sv m = false) :
    pruneMovies servers movies = (movies, []) := by
  unfold pruneMovies
  have h1 : movies.filter (fun m => !servers.any fun sv => serverMissingMovie sv m) =
      movies := by
    rw [List.filter_eq_self]
    intro m hm
    rw [Bool.not_eq_true', List.any_eq_false]
    exact fun sv hsv => by simp [h m hm sv hsv]
  have h2 : movies.filter (fun m => servers.any fun sv => serverMissingMovie sv m) =
      [] := by
    rw [List.filter_eq_nil_iff]
    intro m hm
    rw [Bool.not_eq_true, List.any_eq_false]
    exact fun sv hsv => by simp [h m hm sv hsv]
  rw [h1, h2, List.map_nil]

theorem pruneSeriesStep_id :
    ∀ (servers : List WServer) (ser : Series),
    (∀ sv ∈ servers, ∀ L, effLib sv = some L →
      L.series.find? (fun ss => check_same_identifiers ser.identifiers ss.identifiers) =
        some ser) →
    (∀ e ∈ ser.episodes, check_same_identifiers e.identifiers e.identifiers = true) →
    ser.episodes ≠ [] →
    pruneSeriesStep ser servers = (some ser, [])
  | [], ser => by
    intro _ _ _
    rfl
  | sv :: rest, ser => by
    intro hfind hself hne
    cases he : effLib sv with
    | none =>
      simp only [pruneSeriesStep, he]
      exact pruneSeriesStep_id rest ser
        (fun u hu => hfind u (List.mem_cons_of_mem sv hu)) hself hne
    | some L =>
      have hf := hfind sv (List.mem_cons_self sv rest) L he
      have hkeep : ∀ e ∈ ser.episodes,
          (ser.episodes.any
            (fun se => check_same_identifiers e.identifiers se.identifiers)) = true := by
        intro e he2
        rw [List.any_eq_true]
        exact ⟨e, he2, hself e he2⟩
      have hkept : ser.episodes.filter (fun e =>
          ser.episodes.any
            (fun se => check_same_identifiers e.identifiers se.identifiers)) =
          ser.episodes := by
        rw [List.filter_eq_self]
        exact hkeep
      have hrem : ser.episodes.filter (fun e =>
          !ser.episodes.any
            (fun se => check_same_identifiers e.identifiers se.identifiers)) = [] := by
        rw [List.filter_eq_nil_iff]
        intro e he2
        simp [hkeep e he2]
      have hie : ser.episodes.isEmpty = false := by
        rw [List.isEmpty_eq_false]
        exact hne
      simp only [pruneSeriesStep, he, hf, hkept, hrem, hie, Bool.false_eq_true,
        if_false, List.map_nil, List.nil_append]
      exact pruneSeriesStep_id rest ser
        (fun u hu => hfind u (List.mem_cons_of_mem sv hu)) hself hne

theorem pruneLibrary_id (servers : List WServer) (G : LibraryData)
    (hmov : ∀ m ∈ G.movies, ∀ sv ∈ servers, serverMissingMovie sv m = false)
    (hser : ∀ s ∈ G.series, pruneSeriesStep s servers = (some s, [])) :
    pruneLibrary servers G = (G, []) := by
  unfold pruneLibrary
  rw [pruneMovies_id servers G.movies hmov,
    List.map_congr_left (fun s hs => hser s hs)]
  show (⟨G.title, G.movies, List.filterMap (fun r => r.1)
      (G.series.map (fun s => ((some s : Option Series), ([] : List Tombstone))))⟩,
    ([] : List Tombstone) ++
      ((G.series.map (fun s => ((some s : Option Series), ([] : List Tombstone)))).map
        (fun r => r.2)).flatten) = (G, [])
  rw [List.filterMap_map, List.map_map]
  show (⟨G.title, G.movies, G.series.filterMap some⟩,
    ([] : List Tombstone) ++ (G.series.map (fun _ => [])).flatten) = (G, [])
  rw [filterMap_some_id, flatten_map_nil, List.nil_append]


theorem libMap_congr {f g : MediaItem → MediaItem} (h : ∀ x, f x = g x)
    (G : LibraryData) : libMap f G = libMap g G := by
  unfold libMap
  have h1 : G.movies.map f = G.movies.map g := List.map_congr_left (fun x _ => h x)
  have h2 : G.series.map (fun s => (⟨s.identifiers, s.episodes.map f⟩ : Series)) =
      G.series.map (fun s => ⟨s.identifiers, s.episodes.map g⟩) :=
    List.map_congr_left (fun s _ => by rw [List.map_congr_left (fun x _ => h x)])
  rw [h1, h2]

theorem markMovies_aux (ts : Int) (sid : String) (f : MediaItem → MediaItem)
    (hf : ledgerOnly f) :
    ∀ (B P : List MediaItem),
    (∀ m ∈ B, ∀ u ∈ P, check_same_identifiers m.identifiers u.identifiers = false) →
    (∀ m ∈ B, check_same_identifiers m.identifiers m.identifiers = true) →
    B.Pairwise (fun a b => bothNoMatch a.identifiers b.identifiers) →
    markMovies ts sid (P ++ B.map f) B =
      P ++ B.map (fun x => stampEntry ts sid (f x))
  | [], P => by
    intro _ _ _
    simp [markMovies]
  | m :: B, P => by
    intro hP hself hpair
    have hscan := markMovieOne_scan ts sid P (f m) (B.map f) m
      (fun u hu => hP m (List.mem_cons_self m B) u hu)
      (by rw [(hf m).1]; exact hself m (List.mem_cons_self m B))
      (by rw [(hf m).2]; exact statusAgree_self m.status)
    have hrel := (List.pairwise_cons.mp hpair).1
    have hrec := markMovies_aux ts sid f hf B (P ++ [stampEntry ts sid (f m)])
      (by
        intro m2 hm2 u hu
        rcases List.mem_append.mp hu with h1 | h2
        · exact hP m2 (List.mem_cons_of_mem m hm2) u h1
        · rw [List.mem_singleton] at h2
          subst h2
          rw [stampEntry_identifiers, (hf m).1]
          exact (hrel m2 hm2).2)
      (fun m2 hm2 => hself m2 (List.mem_cons_of_mem m hm2))
      (List.pairwise_cons.mp hpair).2
    unfold markMovies at hrec ⊢
    rw [List.map_cons, List.foldl_cons, hscan]
    rw [show P ++ stampEntry ts sid (f m) :: B.map f =
      (P ++ [stampEntry ts sid (f m)]) ++ B.map f by simp]
    rw [hrec]
    simp

theorem markSeries_aux (ts : Int) (sid : String) (f : MediaItem → MediaItem)
    (hf : ledgerOnly f) :
    ∀ (B P : List Series),
    (∀ s ∈ B, ∀ u ∈ P, check_same_identifiers s.identifiers u.identifiers = false) →
    (∀ s ∈ B, check_same_identifiers s.identifiers s.identifiers = true) →
    B.Pairwise (fun a b => bothNoMatch a.identifiers b.identifiers) →
    (∀ s ∈ B, ∀ e ∈ s.episodes,
      check_same_identifiers e.identifiers e.identifiers = true) →
    (∀ s ∈ B,
      s.episodes.Pairwise (fun a b => bothNoMatch a.identifiers b.identifiers)) →
    B.foldl (fun acc ss => markSeriesOne ts sid ss acc)
        (P ++ B.map (fun s => ⟨s.identifiers, s.episodes.map f⟩)) =
      P ++ B.map (fun s =>
        ⟨s.identifiers, s.episodes.map (fun x => stampEntry ts sid (f x))⟩)
  | [], P => by
    intro _ _ _ _ _
    simp
  | s :: B, P => by
    intro hP hself hpair hes hep
    have hscan := markSeriesOne_scan ts sid P
      ⟨s.identifiers, s.episodes.map f⟩ (B.map (fun x => ⟨x.identifiers, x.episodes.map f⟩)) s
      (fun u hu => hP s (List.mem_cons_self s B) u hu)
      (hself s (List.mem_cons_self s B))
    have heps : markMovies ts sid (s.episodes.map f) s.episodes =
        s.episodes.map (fun x => stampEntry ts sid (f x)) := by
      have := markMovies_aux ts sid f hf s.episodes []
        (by intro m _ u hu; exact absurd hu (List.not_mem_nil u))
        (hes s (List.mem_cons_self s B))
        (hep s (List.mem_cons_self s B))
      simpa using this
    have hrel := (List.pairwise_cons.mp hpair).1
    have hrec := markSeries_aux ts sid f hf B
      (P ++ [⟨s.identifiers, s.episodes.map (fun x => stampEntry ts sid (f x))⟩])
      (by
        intro s2 hs2 u hu
        rcases List.mem_append.mp hu with h1 | h2
        · exact hP s2 (List.mem_cons_of_mem s hs2) u h1
        · rw [List.mem_singleton] at h2
          subst h2
          exact (hrel s2 hs2).2)
      (fun s2 hs2 => hself s2 (List.mem_cons_of_mem s hs2))
      (List.pairwise_cons.mp hpair).2
      (fun s2 hs2 => hes s2 (List.mem_cons_of_mem s hs2))
      (fun s2 hs2 => hep s2 (List.mem_cons_of_mem s hs2))
    rw [List.map_cons, List.foldl_cons, hscan, heps]
    rw [show P ++ (⟨s.identifiers, s.episodes.map (fun x => stampEntry ts sid (f x))⟩ : Series) ::
        B.map (fun x => ⟨x.identifiers, x.episodes.map f⟩) =
      (P ++ [(⟨s.identifiers, s.episodes.map (fun x => stampEntry ts sid (f x))⟩ : Series)]) ++
        B.map (fun x => ⟨x.identifiers, x.episodes.map f⟩) by simp]
    rw [hrec]
    simp


theorem markLibrary_shape (ts : Int) (sid : String) (f : MediaItem → MediaItem)
    (hf : ledgerOnly f) (G : LibraryData)
    (hmself : ∀ m ∈ G.movies, check_same_identifiers m.identifiers m.identifiers = true)
    (hmpair : G.movies.Pairwise (fun a b => bothNoMatch a.identifiers b.identifiers))
    (hsself : ∀ s ∈ G.series, check_same_identifiers s.identifiers s.identifiers = true)
    (hspair : G.series.Pairwise (fun a b => bothNoMatch a.identifiers b.identifiers))
    (heself : ∀ s ∈ G.series, ∀ e ∈ s.episodes,
      check_same_identifiers e.identifiers e.identifiers = true)
    (hepair : ∀ s ∈ G.series,
      s.episodes.Pairwise (fun a b => bothNoMatch a.identifiers b.identifiers)) :
    markLibrary ts sid (libMap f G) G = libMap (fun x => stampEntry ts sid (f x)) G := by
  unfold markLibrary libMap
  have hm := markMovies_aux ts sid f hf G.movies []
    (by intro m _ u hu; exact absurd hu (List.not_mem_nil u)) hmself hmpair
  have hs := markSeries_aux ts sid f hf G.series []
    (by intro s _ u hu; exact absurd hu (List.not_mem_nil u)) hsself hspair
    heself hepair
  simp only [List.nil_append] at hm hs
  rw [hm, hs]

theorem stampServers_nil (ts : Int) (m : MediaItem) : stampServers ts [] m = m := rfl

theorem stampServers_cons_none (ts : Int) {sv : WServer} (he : effLib sv = none)
    (rest : List WServer) (m : MediaItem) :
    stampServers ts (sv :: rest) m = stampServers ts rest m := by
  simp [stampServers, he]

theorem stampServers_cons_some (ts : Int) {sv : WServer} {L : LibraryData}
    (he : effLib sv = some L) (rest : List WServer) (m : MediaItem) :
    stampServers ts (sv :: rest) m = stampServers ts rest (stampEntry ts sv.id m) := by
  simp [stampServers, he]

theorem stampServers_ledgerOnly (ts : Int) :
    ∀ (servers : List WServer), ledgerOnly (stampServers ts servers)
  | [] => fun x => ⟨rfl, rfl⟩
  | sv :: rest => by
    intro x
    cases he : effLib sv with
    | none =>
      rw [stampServers_cons_none ts he]
      exact stampServers_ledgerOnly ts rest x
    | some L =>
      rw [stampServers_cons_some ts he]
      have h := stampServers_ledgerOnly ts rest (stampEntry ts sv.id x)
      rw [h.1, h.2, stampEntry_identifiers, stampEntry_status]
      exact ⟨rfl, rfl⟩

theorem markStage_shape (ts : Int) (G : LibraryData)
    (hmself : ∀ m ∈ G.movies, check_same_identifiers m.identifiers m.identifiers = true)
    (hmpair : G.movies.Pairwise (fun a b => bothNoMatch a.identifiers b.identifiers))
    (hsself : ∀ s ∈ G.series, check_same_identifiers s.identifiers s.identifiers = true)
    (hspair : G.series.Pairwise (fun a b => bothNoMatch a.identifiers b.identifiers))
    (heself : ∀ s ∈ G.series, ∀ e ∈ s.episodes,
      check_same_identifiers e.identifiers e.identifiers = true)
    (hepair : ∀ s ∈ G.series,
      s.episodes.Pairwise (fun a b => bothNoMatch a.identifiers b.identifiers)) :
    ∀ (servers : List WServer) (f : MediaItem → MediaItem), ledgerOnly f →
    (∀ sv ∈ servers, ∀ L, effLib sv = some L → L = G) →
    markStage ts (libMap f G) servers =
      libMap (fun m => stampServers ts servers (f m)) G
  | [], f, hf, h1 => rfl
  | sv :: rest, f, hf, h1 => by
    cases he : effLib sv with
    | none =>
      have ih := markStage_shape ts G hmself hmpair hsself hspair heself hepair rest f hf
        (fun u hu => h1 u (List.mem_cons_of_mem sv hu))
      simp only [markStage, List.foldl_cons, he] at ih ⊢
      rw [ih]
      exact libMap_congr (fun x => (stampServers_cons_none ts he rest (f x)).symm) G
    | some L =>
      have hL : L = G := h1 sv (List.mem_cons_self sv rest) L he
      subst hL
      have hstep := markLibrary_shape ts sv.id f hf L hmself hmpair hsself hspair
        heself hepair
      have ih := markStage_shape ts L hmself hmpair hsself hspair heself hepair rest
        (fun x => stampEntry ts sv.id (f x))
        (fun x => by rw [stampEntry_identifiers, stampEntry_status]; exact hf x)
        (fun u hu => h1 u (List.mem_cons_of_mem sv hu))
      simp only [markStage, List.foldl_cons, he] at ih ⊢
      rw [hstep, ih]
      exact libMap_congr (fun x => (stampServers_cons_some ts he rest (f x)).symm) L

theorem stampServers_untouched (ts : Int) (sid : String) :
    ∀ (servers : List WServer) (x : MediaItem),
    (∀ sv ∈ servers, sv.id ≠ sid ∨ effLib sv = none) →
    dictGet (stampServers ts servers x).synced_to_servers sid =
      dictGet x.synced_to_servers sid
  | [], x => by
    intro _
    rfl
  | sv :: rest, x => by
    intro h
    cases he : effLib sv with
    | none =>
      rw [stampServers_cons_none ts he]
      exact stampServers_untouched ts sid rest x
        (fun u hu => h u (List.mem_cons_of_mem sv hu))
    | some L =>
      rcases h sv (List.mem_cons_self sv rest) with hne | habs
      · rw [stampServers_cons_some ts he]
        rw [stampServers_untouched ts sid rest (stampEntry ts sv.id x)
          (fun u hu => h u (List.mem_cons_of_mem sv hu))]
        unfold stampEntry
        exact dictGet_dictSet_ne x.synced_to_servers sv.id sid ⟨ts, x.status⟩
          (fun hx => hne hx.symm)
      · rw [habs] at he
        cases he

theorem stampServers_ledger (ts : Int) (sid : String) :
    ∀ (servers : List WServer) (m : MediaItem),
    (∃ sv ∈ servers, sv.id = sid ∧ ∃ L, effLib sv = some L) →
    dictGet (stampServers ts servers m).synced_to_servers sid = some ⟨ts, m.status⟩
  | [], m => by
    rintro ⟨sv, hsv, -⟩
    exact absurd hsv (List.not_mem_nil sv)
  | sv :: rest, m => by
    rintro ⟨sv', hsv', hid, L', hL'⟩
    cases he : effLib sv with
    | none =>
      have hrest : sv' ∈ rest := by
        rcases List.mem_cons.mp hsv' with rfl | hmem
        · rw [hL'] at he
          cases he
        · exact hmem
      rw [stampServers_cons_none ts he]
      exact stampServers_ledger ts sid rest m ⟨sv', hrest, hid, L', hL'⟩
    | some L =>
      rw [stampServers_cons_some ts he]
      by_cases hq : ∃ u ∈ rest, u.id = sid ∧ ∃ L2, effLib u = some L2
      · rw [stampServers_ledger ts sid rest (stampEntry ts sv.id m) hq,
          stampEntry_status]
      · have hnone : ∀ u ∈ rest, u.id ≠ sid ∨ effLib u = none := by
          intro u hu
          by_cases h1 : u.id = sid
          · cases heu : effLib u with
            | none => exact Or.inr rfl
            | some L2 => exact absurd ⟨u, hu, h1, L2, heu⟩ hq
          · exact Or.inl h1
        have hsv2 : sv' = sv := by
          rcases List.mem_cons.mp hsv' with rfl | hmem
          · rfl
          · rcases hnone sv' hmem with h1 | h1
            · exact absurd hid h1
            · rw [h1] at hL'
              cases hL'
        subst hsv2
        subst hid
        rw [stampServers_untouched ts sv'.id rest (stampEntry ts sv'.id m) hnone]
        unfold stampEntry
        simp [dictGet_dictSet_self]



theorem libMap_id (G : LibraryData) : libMap (fun x => x) G = G := by
  unfold libMap
  have h1 : G.movies.map (fun x => x) = G.movies := List.map_id G.movies
  have h2 : G.series.map (fun s =>
      (⟨s.identifiers, s.episodes.map (fun x => x)⟩ : Series)) = G.series := by
    rw [List.map_congr_left (fun s (_ : s ∈ G.series) =>
      show (⟨s.identifiers, s.episodes.map (fun x => x)⟩ : Series) = s by
        have he : s.episodes.map (fun x => x) = s.episodes := List.map_id s.episodes
        rw [he])]
    exact List.map_id G.series
  rw [h1, h2]

theorem filterMap_nil_of {α β : Type} (f : α → Option β) :
    ∀ (l : List α), (∀ a ∈ l, f a = none) → l.filterMap f = []
  | [] => fun _ => rfl
  | a :: t => by
    intro h
    rw [List.filterMap_cons, h a (List.mem_cons_self a t)]
    exact filterMap_nil_of f t (fun b hb => h b (List.mem_cons_of_mem a hb))

theorem needsSync_stamped (ts : Int) (sid : String) (servers : List WServer)
    (x : MediaItem)
    (hq : ∃ sv ∈ servers, sv.id = sid ∧ ∃ L, effLib sv = some L) :
    needsSync sid (stampServers ts servers x) = false := by
  have hg := stampServers_ledger ts sid servers x hq
  have hst : (stampServers ts servers x).status = x.status :=
    (stampServers_ledgerOnly ts servers x).2
  simp [needsSync, hg, hst]

theorem create_diff_none (ts : Int) (sid : String) (servers : List WServer)
    (G : LibraryData)
    (hq : ∃ sv ∈ servers, sv.id = sid ∧ ∃ L, effLib sv = some L) :
    create_diff_library (libMap (fun m => stampServers ts servers m) G) sid = none := by
  have hm : diffMoviesD (libMap (fun m => stampServers ts servers m) G) sid = [] := by
    unfold diffMoviesD libMap
    rw [List.filter_eq_nil_iff]
    intro x hx
    obtain ⟨m, hm2, rfl⟩ := List.mem_map.mp hx
    simp [needsSync_stamped ts sid servers m hq]
  have hs : diffSeriesD (libMap (fun m => stampServers ts servers m) G) sid = [] := by
    unfold diffSeriesD libMap
    rw [List.map_map, List.filter_eq_nil_iff]
    intro x hx
    obtain ⟨s0, hs0, rfl⟩ := List.mem_map.mp hx
    have heps : ((s0.episodes.map (fun m => stampServers ts servers m)).filter
        (needsSync sid)) = [] := by
      rw [List.filter_eq_nil_iff]
      intro y hy
      obtain ⟨e, he2, rfl⟩ := List.mem_map.mp hy
      simp [needsSync_stamped ts sid servers e hq]
    show ¬ (!(Series.mk s0.identifiers
      ((s0.episodes.map (fun m => stampServers ts servers m)).filter
        (needsSync sid))).episodes.isEmpty) = true
    simp [heps]
  unfold create_diff_library
  rw [hm, hs]
  rfl

theorem removalPayload_none (G : LibraryData) (h : MediaItem → MediaItem)
    (hident : ∀ x, (h x).identifiers = x.identifiers)
    (hmself : ∀ m ∈ G.movies, check_same_identifiers m.identifiers m.identifiers = true)
    (hsself : ∀ s ∈ G.series, check_same_identifiers s.identifiers s.identifiers = true)
    (hspair : G.series.Pairwise (fun a b => bothNoMatch a.identifiers b.identifiers))
    (heself : ∀ s ∈ G.series, ∀ e ∈ s.episodes,
      check_same_identifiers e.identifiers e.identifiers = true) :
    removalPayload (libMap h G) G = none := by
  have hmov : removalMovies (libMap h G) G = [] := by
    unfold removalMovies
    rw [List.filter_eq_nil_iff]
    intro sm hsm
    have hany : (libMap h G).movies.any
        (fun gm => check_same_identifiers gm.identifiers sm.identifiers) = true := by
      rw [List.any_eq_true]
      refine ⟨h sm, List.mem_map.mpr ⟨sm, hsm, rfl⟩, ?_⟩
      rw [hident sm]
      exact hmself sm hsm
    simp [hany]
  have hser : removalSeries (libMap h G) G = [] := by
    unfold removalSeries
    apply filterMap_nil_of
    intro ss hss
    obtain ⟨pre, post, hdec, hpre⟩ := pairwise_decomp G.series ss hspair hss
    have hfind : (libMap h G).series.find?
        (fun gs => check_same_identifiers gs.identifiers ss.identifiers) =
        some ⟨ss.identifiers, ss.episodes.map h⟩ := by
      unfold libMap
      rw [hdec, List.map_append, List.map_cons]
      exact find?_first _ _ _ _
        (fun u hu => by
          obtain ⟨u0, hu0, rfl⟩ := List.mem_map.mp hu
          exact (hpre u0 hu0).1)
        (hsself ss hss)
    have heps : ss.episodes.filter (fun se =>
        !(ss.episodes.map h).any
          (fun ge => check_same_identifiers ge.identifiers se.identifiers)) = [] := by
      rw [List.filter_eq_nil_iff]
      intro se hse
      have hany : (ss.episodes.map h).any
          (fun ge => check_same_identifiers ge.identifiers se.identifiers) = true := by
        rw [List.any_eq_true]
        refine ⟨h se, List.mem_map.mpr ⟨se, hse, rfl⟩, ?_⟩
        rw [hident se]
        exact heself ss hss se hse
      simp [hany]
    unfold removalSeriesOne
    rw [hfind]
    simp [heps]
    intro x hx
    exact ⟨x, hx, by rw [hident x]; exact heself ss hss x hx⟩
  unfold removalPayload
  rw [hmov, hser]
  rfl

theorem syncServer_inert (ts : Int) (M : LibraryData) (sv : WServer)
    (hdiff : create_diff_library M sv.id = none)
    (hrem : ∀ L, effLib sv = some L → removalPayload M L = none) :
    syncServer ts M sv = ((none, none), M) := by
  cases he : effLib sv with
  | none => simp [syncServer, he]
  | some L => simp [syncServer, he, hdiff, hrem L he]

theorem pushFold_inert (ts : Int) (M : LibraryData) :
    ∀ (servers : List WServer),
    (∀ sv ∈ servers, syncServer ts M sv = ((none, none), M)) →
    ∀ (P : List (String × (Option LibraryData × Option LibraryData))),
    servers.foldl
      (fun (acc : List (String × (Option LibraryData × Option LibraryData)) × LibraryData) sv =>
        (acc.1 ++ [(sv.id, (syncServer ts acc.2 sv).1)], (syncServer ts acc.2 sv).2))
      (P, M) =
      (P ++ servers.map (fun sv => (sv.id, ((none : Option LibraryData),
        (none : Option LibraryData)))), M)
  | [] => by
    intro _ P
    simp
  | sv :: rest => by
    intro hin P
    have hstep := hin sv (List.mem_cons_self sv rest)
    have ih := pushFold_inert ts M rest
      (fun u hu => hin u (List.mem_cons_of_mem sv hu)) (P ++ [(sv.id, (none, none))])
    simp only [List.foldl_cons, hstep]
    rw [ih]
    simp


theorem runCycle_converged (ts : Int) (G : LibraryData) (servers : List WServer)
    (hW1 : ∀ sv ∈ servers, ∀ L, effLib sv = some L → L = G)
    (hmself : ∀ m ∈ G.movies, check_same_identifiers m.identifiers m.identifiers = true)
    (hmpair : G.movies.Pairwise (fun a b => bothNoMatch a.identifiers b.identifiers))
    (hsself : ∀ s ∈ G.series, check_same_identifiers s.identifiers s.identifiers = true)
    (hspair : G.series.Pairwise (fun a b => bothNoMatch a.identifiers b.identifiers))
    (heself : ∀ s ∈ G.series, ∀ e ∈ s.episodes,
      check_same_identifiers e.identifiers e.identifiers = true)
    (hepair : ∀ s ∈ G.series,
      s.episodes.Pairwise (fun a b => bothNoMatch a.identifiers b.identifiers))
    (hsne : ∀ s ∈ G.series, s.episodes ≠ []) :
    ∀ entry ∈ (runCycle ts G servers).2.2, entry.2 = (none, none) := by
  have hmov : ∀ m ∈ G.movies, ∀ sv ∈ servers, serverMissingMovie sv m = false := by
    intro m hm sv hsv
    cases hs : sv.snap with
    | none => exact serverMissingMovie_none hs m
    | some o =>
      cases o with
      | none => simp [serverMissingMovie, hs]
      | some L =>
        have heff : effLib sv = some L := by
          unfold effLib
          rw [hs]
        have hLG := hW1 sv hsv L heff
        subst hLG
        have hany : L.movies.any
            (fun sm => check_same_identifiers m.identifiers sm.identifiers) = true := by
          rw [List.any_eq_true]
          exact ⟨m, hm, hmself m hm⟩
        simp [serverMissingMovie, hs, hany]
  have hser : ∀ s ∈ G.series, pruneSeriesStep s servers = (some s, []) := by
    intro s hs
    apply pruneSeriesStep_id
    · intro sv hsv L heff
      have hLG := hW1 sv hsv L heff
      subst hLG
      obtain ⟨pre, post, hdec, hpre⟩ := pairwise_decomp L.series s hspair hs
      rw [hdec]
      exact find?_first _ pre s post (fun u hu => (hpre u hu).2) (hsself s hs)
    · exact heself s hs
    · exact hsne s hs
  have hprune : pruneLibrary servers G = (G, []) := pruneLibrary_id servers G hmov hser
  have hmerge : mergeStage [] G servers = G :=
    mergeStage_id servers G hW1 (mergeMovies_self G.movies hmpair hmself)
      (mergeSeries_self G.series hspair hsself hepair heself)
  have hmark : markStage ts G servers =
      libMap (fun m => stampServers ts servers m) G := by
    have h := markStage_shape ts G hmself hmpair hsself hspair heself hepair servers
      (fun x => x) (fun x => ⟨rfl, rfl⟩) hW1
    rw [libMap_id] at h
    exact h
  have hstate : cycleStateAfterMark ts G servers =
      libMap (fun m => stampServers ts servers m) G := by
    unfold cycleStateAfterMark
    rw [hprune, hmerge, hmark]
  have hinert : ∀ sv ∈ servers,
      syncServer ts (libMap (fun m => stampServers ts servers m) G) sv =
        ((none, none), libMap (fun m => stampServers ts servers m) G) := by
    intro sv hsv
    cases he : effLib sv with
    | none => simp [syncServer, he]
    | some L =>
      have hq : ∃ u ∈ servers, u.id = sv.id ∧ ∃ L2, effLib u = some L2 :=
        ⟨sv, hsv, rfl, L, he⟩
      have hdiff := create_diff_none ts sv.id servers G hq
      have hLG := hW1 sv hsv L he
      subst hLG
      have hrem := removalPayload_none L (fun m => stampServers ts servers m)
        (fun x => (stampServers_ledgerOnly ts servers x).1) hmself hsself hspair heself
      simp [syncServer, he, hdiff, hrem]
  intro entry hentry
  unfold runCycle at hentry
  rw [hstate] at hentry
  unfold pushFold at hentry
  rw [pushFold_inert ts (libMap (fun m => stampServers ts servers m) G) servers
    hinert []] at hentry
  simp only [List.nil_append] at hentry
  obtain ⟨sv, _, rfl⟩ := List.mem_map.mp hentry
  rfl


theorem foldl_fixed {α β : Type} (f : α → β → α) :
    ∀ (l : List β) (a : α), (∀ x ∈ l, f a x = a) → l.foldl f a = a
  | [], a => fun _ => rfl
  | x :: t, a => by
    intro h
    rw [List.foldl_cons, h x (List.mem_cons_self x t)]
    exact foldl_fixed f t a (fun y hy => h y (List.mem_cons_of_mem x hy))

theorem dictGet_mem_nodup {α : Type} :
    ∀ (l : List (String × α)), (l.map Prod.fst).Nodup →
    ∀ e ∈ l, dictGet l e.1 = some e.2
  | [], _, e, he => absurd he (List.not_mem_nil e)
  | x :: rest, hk, e, he => by
    rcases List.mem_cons.mp he with rfl | hmem
    · simp [dictGet]
    · have hne : ¬ x.1 = e.1 := by
        intro hx
        have := (List.pairwise_cons.mp hk).1 e.1 (List.mem_map.mpr ⟨e, hmem, rfl⟩)
        exact this hx
      rw [dictGet, if_neg hne]
      exact dictGet_mem_nodup rest (List.pairwise_cons.mp hk).2 e hmem

theorem mem_keys_nodup_eq {α : Type} :
    ∀ (l : List (String × α)), (l.map Prod.fst).Nodup →
    ∀ e ∈ l, ∀ e2 ∈ l, e.1 = e2.1 → e = e2
  | [], _, e, he => absurd he (List.not_mem_nil e)
  | x :: rest, hk, e, he => by
    intro e2 he2 h12
    rcases List.mem_cons.mp he with rfl | hmem
    · rcases List.mem_cons.mp he2 with rfl | hmem2
      · rfl
      · exfalso
        exact (List.pairwise_cons.mp hk).1 e2.1
          (List.mem_map.mpr ⟨e2, hmem2, rfl⟩) h12
    · rcases List.mem_cons.mp he2 with rfl | hmem2
      · exfalso
        exact (List.pairwise_cons.mp hk).1 e.1
          (List.mem_map.mpr ⟨e, hmem, rfl⟩) h12.symm
      · exact mem_keys_nodup_eq rest (List.pairwise_cons.mp hk).2 e hmem e2 hmem2 h12


theorem check_fields_left {a a' : MediaIdentifiers}
    (hloc : a'.locations = a.locations) (him : a'.imdb_id = a.imdb_id)
    (htv : a'.tvdb_id = a.tvdb_id) (htm : a'.tmdb_id = a.tmdb_id)
    (hpg : a'.plex_guid = a.plex_guid) (x : MediaIdentifiers) :
    check_same_identifiers a' x = check_same_identifiers a x := by
  unfold check_same_identifiers check_guid_match extIdHit
  rw [hloc, him, htv, htm, hpg]

theorem check_fields_right {a a' : MediaIdentifiers}
    (hloc : a'.locations = a.locations) (him : a'.imdb_id = a.imdb_id)
    (htv : a'.tvdb_id = a.tvdb_id) (htm : a'.tmdb_id = a.tmdb_id)
    (hpg : a'.plex_guid = a.plex_guid) (x : MediaIdentifiers) :
    check_same_identifiers x a' = check_same_identifiers x a := by
  unfold check_same_identifiers check_guid_match extIdHit
  rw [hloc, him, htv, htm, hpg]

theorem union_of_subset {α : Type} [DecidableEq α] :
    ∀ (l1 l2 : List α), l1 ⊆ l2 → l1.union l2 = l2
  | [], l2 => fun _ => rfl
  | a :: t, l2 => by
    intro h
    have ha : a ∈ l2 := h (List.mem_cons_self a t)
    have ih := union_of_subset t l2 (fun x hx => h (List.mem_cons_of_mem a hx))
    show List.insert a (t.union l2) = l2
    rw [ih, List.insert_of_mem ha]

theorem dedup_append_self {α : Type} [DecidableEq α] (l : List α) (h : l.Nodup) :
    (l ++ l).dedup = l := by
  rw [List.dedup_append, List.dedup_eq_self.mpr h]
  exact union_of_subset l l (fun x hx => hx)

theorem merge_identifiers_self (s : MediaIdentifiers) (h : s.locations.Nodup) :
    merge_identifiers s s = s := by
  unfold merge_identifiers
  have h1 : ∀ o : Option String, (!strTruthy o && strTruthy o) = false := by
    intro o
    cases strTruthy o <;> rfl
  by_cases hemp : s.locations.isEmpty
  · simp [h1, hemp]
  · simp [h1, hemp, dedup_append_self s.locations h]

theorem plMergeItemNoTrash_scan :
    ∀ (pre : List MediaIdentifiers) (g : MediaIdentifiers)
      (post : List MediaIdentifiers) (s : MediaIdentifiers),
    (∀ u ∈ pre, check_same_identifiers s u = false) →
    check_same_identifiers s g = true →
    plMergeItem.plMergeItemNoTrash (pre ++ g :: post) s =
      pre ++ merge_identifiers g s :: post
  | [], g, post, s => by
    intro _ hg
    simp [plMergeItem.plMergeItemNoTrash, hg]
  | u :: pre, g, post, s => by
    intro hpre hg
    have hu := hpre u (List.mem_cons_self u pre)
    simp only [List.cons_append, plMergeItem.plMergeItemNoTrash, hu,
      Bool.false_eq_true, if_false, List.append_eq]
    rw [plMergeItemNoTrash_scan pre g post s
      (fun v hv => hpre v (List.mem_cons_of_mem u hv)) hg]

theorem plMarkOne_scan (ts : Int) (sid : String) :
    ∀ (pre : List MediaIdentifiers) (g : MediaIdentifiers)
      (post : List MediaIdentifiers) (si : MediaIdentifiers),
    (∀ u ∈ pre, check_same_identifiers si u = false) →
    check_same_identifiers si g = true →
    plMarkOne ts sid si (pre ++ g :: post) = pre ++ plStamp ts sid g :: post
  | [], g, post, si => by
    intro _ hg
    simp [plMarkOne, plStamp, hg]
  | u :: pre, g, post, si => by
    intro hpre hg
    have hu := hpre u (List.mem_cons_self u pre)
    simp only [List.cons_append, plMarkOne, hu, Bool.false_eq_true, if_false,
      List.append_eq]
    rw [plMarkOne_scan ts sid pre g post si
      (fun v hv => hpre v (List.mem_cons_of_mem u hv)) hg]

theorem plUpdate_id (l : List (String × Playlist)) (t : String)
    (f : Playlist → Playlist) (h : ∀ e ∈ l, e.1 = t → f e.2 = e.2) :
    plUpdate l t f = l := by
  unfold plUpdate
  have hstep : ∀ e ∈ l, (if e.1 = t then (e.1, f e.2) else e) = e := by
    intro e he
    by_cases ht : e.1 = t
    · rw [if_pos ht, h e he ht]
    · rw [if_neg ht]
  rw [List.map_congr_left hstep]
  exact List.map_id l


theorem plPhase1_noop (sid : String) (Gpl : List (String × Playlist))
    (hk : (Gpl.map Prod.fst).Nodup)
    (hself : ∀ e ∈ Gpl, ∀ it ∈ e.2.items, check_same_identifiers it it = true) :
    ∀ (spls : List (String × Playlist)), (∀ sp ∈ spls, sp ∈ Gpl) →
    ∀ (trash : List (String × List MediaIdentifiers)),
    plPhase1Server sid spls (Gpl, trash) = (Gpl, trash) := by
  intro spls hin trash
  unfold plPhase1Server
  apply foldl_fixed
  intro sp hsp
  have hget : dictGet Gpl sp.1 = some sp.2 := dictGet_mem_nodup Gpl hk sp (hin sp hsp)
  have hrem : sp.2.items.filter (plDeleted sid sp.2.items) = [] := by
    rw [List.filter_eq_nil_iff]
    intro it hit
    have hany : sp.2.items.any
        (fun si => check_same_identifiers it si) = true := by
      rw [List.any_eq_true]
      exact ⟨it, hit, hself sp (hin sp hsp) it hit⟩
    simp [plDeleted, hany]
  simp [hget, hrem]

theorem plMergeItem_noop (items : List MediaIdentifiers)
    (hpair : items.Pairwise bothNoMatch)
    (hself : ∀ it ∈ items, check_same_identifiers it it = true)
    (hnodup : ∀ it ∈ items, it.locations.Nodup) :
    ∀ s ∈ items, plMergeItem [] items s = items := by
  intro s hs
  show (if (([] : List MediaIdentifiers).any fun t => check_same_identifiers s t) = true
      then items else plMergeItem.plMergeItemNoTrash items s) = items
  rw [if_neg (by simp)]
  obtain ⟨pre, post, rfl, hpre⟩ := pairwise_decomp items s hpair hs
  rw [plMergeItemNoTrash_scan pre s post s (fun u hu => (hpre u hu).2) (hself s hs),
    merge_identifiers_self s (hnodup s hs)]

theorem plPhase2_noop (Gpl : List (String × Playlist))
    (hk : (Gpl.map Prod.fst).Nodup)
    (hself : ∀ e ∈ Gpl, ∀ it ∈ e.2.items, check_same_identifiers it it = true)
    (hpair : ∀ e ∈ Gpl, e.2.items.Pairwise bothNoMatch)
    (hnodup : ∀ e ∈ Gpl, ∀ it ∈ e.2.items, it.locations.Nodup) :
    ∀ (spls : List (String × Playlist)), (∀ sp ∈ spls, sp ∈ Gpl) →
    plPhase2Server [] spls Gpl = Gpl := by
  intro spls hin
  unfold plPhase2Server
  apply foldl_fixed
  intro sp hsp
  have hget : dictGet Gpl sp.1 = some sp.2 := dictGet_mem_nodup Gpl hk sp (hin sp hsp)
  have hfold : sp.2.items.foldl (plMergeItem ((dictGet
      ([] : List (String × List MediaIdentifiers)) sp.1).getD [])) sp.2.items =
      sp.2.items := by
    apply foldl_fixed
    intro s hs
    exact plMergeItem_noop sp.2.items (hpair sp (hin sp hsp)) (hself sp (hin sp hsp))
      (hnodup sp (hin sp hsp)) s hs
  have hupd : plUpdate Gpl sp.1 (fun pl => ⟨pl.title, sp.2.items.foldl
      (plMergeItem ((dictGet ([] : List (String × List MediaIdentifiers)) sp.1).getD []))
      pl.items⟩) = Gpl := by
    apply plUpdate_id
    intro e he het
    have hesp : e = sp := mem_keys_nodup_eq Gpl hk e he sp (hin sp hsp) het
    subst hesp
    rw [hfold]
  simp [hget, hupd]

theorem plMarkOne_pres (ts : Int) (sid : String) (si : MediaIdentifiers) :
    ∀ (orig cur : List MediaIdentifiers), itemsPres orig cur →
    itemsPres orig (plMarkOne ts sid si cur)
  | [], [], h => by
    cases h
    exact List.Forall₂.nil
  | a :: orig, b :: cur, h => by
    rcases h with _ | ⟨hab, hrest⟩
    unfold plMarkOne
    by_cases hc : check_same_identifiers si b = true
    · rw [if_pos hc]
      exact List.Forall₂.cons hab hrest
    · rw [if_neg hc]
      exact List.Forall₂.cons hab (plMarkOne_pres ts sid si orig cur hrest)

theorem markfold_pres (ts : Int) (sid : String) :
    ∀ (srcs : List MediaIdentifiers) (orig cur : List MediaIdentifiers),
    itemsPres orig cur →
    itemsPres orig (srcs.foldl (fun its si => plMarkOne ts sid si its) cur)
  | [], orig, cur, h => h
  | si :: srcs, orig, cur, h => by
    rw [List.foldl_cons]
    exact markfold_pres ts sid srcs orig (plMarkOne ts sid si cur)
      (plMarkOne_pres ts sid si orig cur h)

theorem plUpdate_pres (ts : Int) (sid : String) (t : String)
    (srcs : List MediaIdentifiers) :
    ∀ (orig st : List (String × Playlist)), statePres orig st →
    statePres orig (plUpdate st t (fun pl =>
      ⟨pl.title, srcs.foldl (fun its si => plMarkOne ts sid si its) pl.items⟩))
  | [], [], h => by
    cases h
    exact List.Forall₂.nil
  | e :: orig, e2 :: st, h => by
    rcases h with _ | ⟨⟨hk2, hit⟩, hrest⟩
    unfold plUpdate
    rw [List.map_cons]
    by_cases ht : e2.1 = t
    · rw [if_pos ht]
      refine List.Forall₂.cons ⟨ht.trans ht.symm ▸ hk2, ?_⟩ ?_
      · exact markfold_pres ts sid srcs e.2.items e2.2.items hit
      · exact plUpdate_pres ts sid t srcs orig st hrest
    · rw [if_neg ht]
      exact List.Forall₂.cons ⟨hk2, hit⟩ (plUpdate_pres ts sid t srcs orig st hrest)

theorem plMarkServer_pres (ts : Int) (sid : String) :
    ∀ (spls : List (String × Playlist)) (orig st : List (String × Playlist)),
    statePres orig st → statePres orig (plMarkServer ts sid spls st)
  | [], orig, st, h => h
  | sp :: spls, orig, st, h => by
    unfold plMarkServer
    rw [List.foldl_cons]
    have hstep : statePres orig
        (match dictGet st sp.1 with
         | none => st
         | some _ => plUpdate st sp.1 (fun pl =>
             ⟨pl.title, sp.2.items.foldl (fun its si => plMarkOne ts sid si its) pl.items⟩)) := by
      cases hget : dictGet st sp.1 with
      | none => exact h
      | some pl0 => exact plUpdate_pres ts sid sp.1 sp.2.items orig st h
    exact plMarkServer_pres ts sid spls orig _ hstep


theorem forall2_mem_right {α β : Type} {R : α → β → Prop} :
    ∀ {l : List α} {l2 : List β}, List.Forall₂ R l l2 →
    ∀ b ∈ l2, ∃ a ∈ l, R a b
  | [], [], _, b, hb => absurd hb (List.not_mem_nil b)
  | a :: l, b0 :: l2, h, b, hb => by
    rcases h with _ | ⟨hab, hrest⟩
    rcases List.mem_cons.mp hb with rfl | hmem
    · exact ⟨a, List.mem_cons_self a l, hab⟩
    · obtain ⟨a2, ha2, hr⟩ := forall2_mem_right hrest b hmem
      exact ⟨a2, List.mem_cons_of_mem a ha2, hr⟩

theorem forall2_mem_left {α β : Type} {R : α → β → Prop} :
    ∀ {l : List α} {l2 : List β}, List.Forall₂ R l l2 →
    ∀ a ∈ l, ∃ b ∈ l2, R a b
  | [], [], _, a, ha => absurd ha (List.not_mem_nil a)
  | a0 :: l, b :: l2, h, a, ha => by
    rcases h with _ | ⟨hab, hrest⟩
    rcases List.mem_cons.mp ha with rfl | hmem
    · exact ⟨b, List.mem_cons_self b l2, hab⟩
    · obtain ⟨b2, hb2, hr⟩ := forall2_mem_left hrest a hmem
      exact ⟨b2, List.mem_cons_of_mem b hb2, hr⟩

theorem plActions_empty (sid : String) (Gpl : List (String × Playlist))
    (hk : (Gpl.map Prod.fst).Nodup)
    (hself : ∀ e ∈ Gpl, ∀ it ∈ e.2.items, check_same_identifiers it it = true) :
    ∀ (st3 : List (String × Playlist)), statePres Gpl st3 →
    plActions sid Gpl st3 = [] := by
  intro st3 hpres
  unfold plActions
  apply foldl_fixed
  intro entry hentry
  obtain ⟨e, he, hkey, hit⟩ := forall2_mem_right hpres entry hentry
  have hget : dictGet Gpl entry.1 = some e.2 := by
    rw [hkey]
    exact dictGet_mem_nodup Gpl hk e he
  simp [hget]
  refine ⟨?_, ?_⟩
  · intro g hg _
    obtain ⟨git, hgit, hfp⟩ := forall2_mem_right hit g hg
    refine ⟨git, hgit, ?_⟩
    rw [check_fields_left hfp.1 hfp.2.1 hfp.2.2.1 hfp.2.2.2.1 hfp.2.2.2.2 git]
    exact hself e he git hgit
  · intro si hsi
    obtain ⟨si2, hsi2, hfp⟩ := forall2_mem_left hit si hsi
    refine ⟨si2, hsi2, ?_⟩
    rw [check_fields_right hfp.1 hfp.2.1 hfp.2.2.1 hfp.2.2.2.1 hfp.2.2.2.2 si]
    exact hself e he si hsi

theorem statePres_refl (Gpl : List (String × Playlist)) : statePres Gpl Gpl := by
  rw [statePres, List.forall₂_same]
  intro e _
  refine ⟨rfl, ?_⟩
  rw [itemsPres, List.forall₂_same]
  intro it _
  exact ⟨rfl, rfl, rfl, rfl, rfl⟩

theorem playlists_converged (ts : Int) (Gpl : List (String × Playlist))
    (plservers : List PlServer)
    (hP1 : ∀ sv ∈ plservers, ∀ spls, sv.playlists = some spls → spls = Gpl)
    (hk : (Gpl.map Prod.fst).Nodup)
    (hself : ∀ e ∈ Gpl, ∀ it ∈ e.2.items, check_same_identifiers it it = true)
    (hpair : ∀ e ∈ Gpl, e.2.items.Pairwise bothNoMatch)
    (hnodup : ∀ e ∈ Gpl, ∀ it ∈ e.2.items, it.locations.Nodup) :
    ∀ entry ∈ (synchronize_playlists ts Gpl plservers).2, entry.2 = [] := by
  have hph1 : plservers.foldl
      (fun acc sv =>
        match sv.playlists with
        | none => acc
        | some spls => plPhase1Server sv.id spls acc)
      (Gpl, []) = (Gpl, []) := by
    apply foldl_fixed
    intro sv hsv
    cases hp : sv.playlists with
    | none => rfl
    | some spls =>
      rw [hP1 sv hsv spls hp]
      exact plPhase1_noop sv.id Gpl hk hself Gpl (fun sp hsp => hsp) []
  have hph2 : plservers.foldl
      (fun acc sv =>
        match sv.playlists with
        | none => acc
        | some spls => plPhase2Server [] spls acc)
      Gpl = Gpl := by
    apply foldl_fixed
    intro sv hsv
    cases hp : sv.playlists with
    | none => rfl
    | some spls =>
      rw [hP1 sv hsv spls hp]
      exact plPhase2_noop Gpl hk hself hpair hnodup Gpl (fun sp hsp => hsp)
  have hph3 : statePres Gpl (plservers.foldl
      (fun acc sv =>
        match sv.playlists with
        | none => acc
        | some spls => plMarkServer ts sv.id spls acc)
      Gpl) := by
    have : ∀ (svs : List PlServer) (st : List (String × Playlist)),
        statePres Gpl st →
        statePres Gpl (svs.foldl
          (fun acc sv =>
            match sv.playlists with
            | none => acc
            | some spls => plMarkServer ts sv.id spls acc) st) := by
      intro svs
      induction svs with
      | nil => exact fun st h => h
      | cons sv rest ih =>
        intro st h
        rw [List.foldl_cons]
        apply ih
        cases hp : sv.playlists with
        | none => exact h
        | some spls => exact plMarkServer_pres ts sv.id spls Gpl st h
    exact this plservers Gpl (statePres_refl Gpl)
  intro entry hentry
  simp only [synchronize_playlists] at hentry
  rw [hph1] at hentry
  simp only [] at hentry
  rw [hph2] at hentry
  obtain ⟨sv, hsv, hres⟩ := List.mem_filterMap.mp hentry
  cases hp : sv.playlists with
  | none =>
    rw [hp] at hres
    cases hres
  | some spls =>
    rw [hp] at hres
    cases hres
    rw [hP1 sv hsv spls hp]
    exact plActions_empty sv.id Gpl hk hself _ hph3

/-- C7: the literal claim — that a second cycle over the very same server
snapshots as the first produces empty payloads — is FALSE (see
claim_C7_counterexample: the first cycle changes the global state, so the
stale snapshots then disagree with it and the second cycle prunes and
unmarks).  The amended statement proved here: a cycle is inert once the
server snapshots reflect the converged global state.  If every fetched
watched-library snapshot equals the global library G (items self-matching,
pairwise non-matching, series with episodes) then the cycle emits no
additions/updates payload and no removal payload for any server; and if
every fetched playlist snapshot equals the global playlist table Gpl
(keys distinct, items self-matching, pairwise non-matching, location lists
duplicate-free) then the playlist pass emits an empty action list for every
server. -/
theorem claim_C7 (ts : Int) (G : LibraryData) (servers : List WServer)
    (Gpl : List (String × Playlist)) (plservers : List PlServer)
    (hW1 : ∀ sv ∈ servers, ∀ L, effLib sv = some L → L = G)
    (hmself : ∀ m ∈ G.movies, check_same_identifiers m.identifiers m.identifiers = true)
    (hmpair : G.movies.Pairwise (fun a b => bothNoMatch a.identifiers b.identifiers))
    (hsself : ∀ s ∈ G.series, check_same_identifiers s.identifiers s.identifiers = true)
    (hspair : G.series.Pairwise (fun a b => bothNoMatch a.identifiers b.identifiers))
    (heself : ∀ s ∈ G.series, ∀ e ∈ s.episodes,
      check_same_identifiers e.identifiers e.identifiers = true)
    (hepair : ∀ s ∈ G.series,
      s.episodes.Pairwise (fun a b => bothNoMatch a.identifiers b.identifiers))
    (hsne : ∀ s ∈ G.series, s.episodes ≠ [])
    (hP1 : ∀ sv ∈ plservers, ∀ spls, sv.playlists = some spls → spls = Gpl)
    (hPk : (Gpl.map Prod.fst).Nodup)
    (hPself : ∀ e ∈ Gpl, ∀ it ∈ e.2.items, check_same_identifiers it it = true)
    (hPpair : ∀ e ∈ Gpl, e.2.items.Pairwise bothNoMatch)
    (hPnodup : ∀ e ∈ Gpl, ∀ it ∈ e.2.items, it.locations.Nodup) :
    (∀ entry ∈ (runCycle ts G servers).2.2, entry.2 = (none, none)) ∧
    (∀ entry ∈ (synchronize_playlists ts Gpl plservers).2, entry.2 = []) :=
  ⟨runCycle_converged ts G servers hW1 hmself hmpair hsself hspair heself hepair hsne,
   playlists_converged ts Gpl plservers hP1 hPk hPself hPpair hPnodup⟩

/-- Concrete instantiation of claim_C7: a one-movie library mirrored by
server A (server F unreachable) and a one-item playlist table mirrored by
server P1 (server P2 unreachable) make the cycle emit empty payloads and
empty action lists. -/
theorem claim_C7_witness :
    (∀ entry ∈ (runCycle 5 c7glib [svA2, svF]).2.2, entry.2 = (none, none)) ∧
    (∀ entry ∈ (synchronize_playlists 5 c7gpl [svP1, svP2]).2, entry.2 = []) :=
  claim_C7 5 c7glib [svA2, svF] c7gpl [svP1, svP2]
    (by
      intro sv hsv L hL
      rcases List.mem_cons.mp hsv with rfl | hsv
      · simp [effLib, svA2] at hL
        exact hL.symm
      rcases List.mem_cons.mp hsv with rfl | hsv
      · simp [effLib, svF] at hL
      · exact absurd hsv (List.not_mem_nil sv))
    (by decide) (by simp [c7glib]) (by decide) (by simp [c7glib]) (by decide)
    (by simp [c7glib]) (by decide)
    (by
      intro sv hsv spls hp
      rcases List.mem_cons.mp hsv with rfl | hsv
      · simp [svP1] at hp
        exact hp.symm
      rcases List.mem_cons.mp hsv with rfl | hsv
      · simp [svP2] at hp
      · exact absurd hsv (List.not_mem_nil sv))
    (by decide) (by decide) (by simp [c7gpl]) (by decide)

end PlexSync
